import Mathlib

/-!
# libsvc `http_client.c`: a shallow embedding

The development follows `src/http_client.c`.  C strings are lists of bytes
(`Nat` values below 256) without their terminating NUL; stateful code is
written as explicit state passing.  The transport engine (libcurl), the JSON
codec and the helpers of libsvc that live in other files (`str_tokenize`,
`ntv_set_str`, `ntv_get_str`, `mbuf_read`, `mbuf_append`, `open_buffer`) are
modelled at their interface.
-/

namespace HttpClient

/-! ## Bytes and C strings -/

/-- A C string: the bytes before the terminating NUL. -/
abbrev Bytes := List Nat

/-- The bytes of an ASCII literal. -/
def cstr (s : String) : Bytes := s.data.map Char.toNat

/-- The value of a byte read through a (signed) `char`. -/
def schar (b : Nat) : Int := if b < 128 then (b : Int) else (b : Int) - 256

/-- The function `tolower` in the C locale, stored back into a `char`. -/
def tolower (b : Nat) : Nat := if 65 ≤ b ∧ b ≤ 90 then b + 32 else b

/-- The loop `for(i = 0; name[i]; i++) name[i] = tolower(name[i])`. -/
def lowercase (name : Bytes) : Bytes := name.map tolower

/-- The statements `memcpy(line, ptr, len); line[len] = 0;
line[strcspn(line, "\n\r")] = 0`: the line as a C string, cut at the first NUL,
LF or CR. -/
def cut_line (ptr : Bytes) : Bytes :=
  ptr.takeWhile (fun b => b != 0 && b != 10 && b != 13)

/-! ## `str_tokenize` (misc.c) -/

/-- The skipping test `(*buf > 0 && *buf < 33) || *buf == delimiter`. -/
def tok_skip (delimiter : Int) (b : Nat) : Bool :=
  (decide (0 < schar b) && decide (schar b < 33)) || decide (schar b = delimiter)

/-- The scanning test `*buf > 32 && *buf != delimiter`. -/
def tok_scan (delimiter : Int) (b : Nat) : Bool :=
  decide (32 < schar b) && decide (schar b ≠ delimiter)

/-- Modelled from the spec: `str_tokenize` is defined in libsvc's `misc.c`, which
is not among the sources; `hdrfunc` calls it as
`str_tokenize(line, argv, 2, -1)` to "split the line into `name: value`".  It
cuts the buffer into at most `vecsize` tokens separated by bytes 1..32 (or the
delimiter byte); the last permitted token keeps the whole rest of the buffer.
The result lists the tokens; its length is the C return value.  `fuel` bounds
the outer `while(1)` loop, one round per token. -/
def str_tokenize_loop (delimiter : Int) (vecsize : Nat) :
    Nat → Bytes → Nat → List Bytes
  | 0, _, _ => []
  | fuel + 1, buf, n =>
    let buf1 := buf.dropWhile (tok_skip delimiter)
    match buf1 with
    | [] => []
    | _ :: _ =>
      if n + 1 = vecsize then [buf1]
      else
        let tok := buf1.takeWhile (tok_scan delimiter)
        match buf1.dropWhile (tok_scan delimiter) with
        | [] => [tok]
        | _ :: rest => tok :: str_tokenize_loop delimiter vecsize fuel rest (n + 1)

/-- The call `str_tokenize(buf, vec, vecsize, delimiter)`. -/
def str_tokenize (buf : Bytes) (vecsize : Nat) (delimiter : Int) : List Bytes :=
  str_tokenize_loop delimiter vecsize (buf.length + 1) buf 0

/-- The statements `c = strrchr(s, ':'); *c = 0`: the part of `s` before its last colon, or
`none` when `s` has no colon. -/
def cut_at_last_colon (s : Bytes) : Option Bytes :=
  match s.reverse.dropWhile (fun b => b != 58) with
  | [] => none
  | _ :: r => some r.reverse

/-! ## The string map (`ntv`) -/

/-- A map of string fields (`ntv_create_map`), in insertion order. -/
abbrev Ntv := List (Bytes × Bytes)

/-- Modelled from the spec: `ntv_set_str` is defined in libsvc's `ntv.c`, which is
not among the sources: "store into the header map keyed by this lower-cased
name (last value wins if the header repeats)".  An existing field of that name
gets the new value, otherwise a field is appended. -/
def ntv_set_str : Ntv → Bytes → Bytes → Ntv
  | [], key, value => [(key, value)]
  | (k, v) :: rest, key, value =>
    if k = key then (k, value) :: rest else (k, v) :: ntv_set_str rest key value

/-- Modelled from the spec: `ntv_get_str` is defined in libsvc's `ntv.c`, which is
not among the sources: the value of the field of that name, if any. -/
def ntv_get_str : Ntv → Bytes → Option Bytes
  | [], _ => none
  | (k, v) :: rest, key => if k = key then some v else ntv_get_str rest key

/-- What `hdrfunc` extracts from one received line: the lower-cased name and the
value, or `none` on the two early `return len` paths. -/
def hdr_parse (ptr : Bytes) : Option (Bytes × Bytes) :=
  match str_tokenize (cut_line ptr) 2 (-1) with
  | [a0, a1] =>
    match cut_at_last_colon a0 with
    | none => none
    | some name => some (lowercase name, a1)
  | _ => none

/-! ## The response record -/

/-- The option flags of `HCR_TAG_FLAGS`.  Their bit values are declared in
`http_client.h`; the code only tests the five bits one by one. -/
structure Flags where
  no_follow_redirect : Bool
  decode_body_as_json : Bool
  verbose : Bool
  accept_gzip : Bool
  no_fail_on_error : Bool

/-- No flag set: `flags = 0`. -/
def Flags.zero : Flags := ⟨false, false, false, false, false⟩

/-- The record `http_client_response_t`; `J` is the type of decoded JSON values.
`hcr_errbuf` is a `char` array whose size is declared in `http_client.h`; it is
taken to be large enough for `"HTTP Error %lu"`. -/
structure Response (J : Type) where
  hcr_headers : Option Ntv
  hcr_headers_listified : Option Ntv
  hcr_json_result : Option J
  hcr_body : Option Bytes
  hcr_bodysize : Nat
  hcr_http_status : Nat
  hcr_transport_status : Option String
  hcr_primary_ip : Option String
  hcr_errbuf : String
  hcr_local_error : Bool
  hcr_malformed_json : Bool

/-- The zeroed record: `memset(hcr, 0, sizeof(http_client_response_t))`. -/
def Response.zero {J : Type} : Response J :=
  { hcr_headers := none, hcr_headers_listified := none, hcr_json_result := none,
    hcr_body := none, hcr_bodysize := 0, hcr_http_status := 0,
    hcr_transport_status := none, hcr_primary_ip := none, hcr_errbuf := "",
    hcr_local_error := false, hcr_malformed_json := false }

/-- The function `http_client_response_free`: every owned field is released and the record is
zeroed. -/
def http_client_response_free {J : Type} (_hcr : Response J) : Response J :=
  Response.zero

/-- The function `hdrfunc`: the header callback of the transport.  It returns `len` on every
path and stores the parsed header, if any, in `hcr->hcr_headers`. -/
def hdrfunc {J : Type} (ptr : Bytes) (hcr : Response J) : Nat × Response J :=
  match hdr_parse ptr with
  | none => (ptr.length, hcr)
  | some (name, value) =>
    (ptr.length,
      { hcr with hcr_headers := hcr.hcr_headers.map (fun m => ntv_set_str m name value) })

/-- The transport delivering a sequence of header lines to `hdrfunc`. -/
def feed_headers {J : Type} (lines : List Bytes) (hcr : Response J) : Response J :=
  lines.foldl (fun h l => (hdrfunc l h).2) hcr

/-! ## The handle pool -/

/-- The static `curl_pool` slot together with the bookkeeping of the handles
that exist: `live` lists the handles constructed by `curl_easy_init` and not
yet destroyed by `curl_easy_cleanup`, `made` counts the constructions. -/
structure Pool where
  curl_pool : Option Nat
  live : List Nat
  made : Nat
deriving DecidableEq, Repr

/-- The pool at program start: `static CURL *curl_pool` is NULL. -/
def Pool.empty : Pool := { curl_pool := none, live := [], made := 0 }

/-- The function `get_handle`.  `curl_easy_init` is taken to succeed; it returns a handle
different from all earlier ones. -/
def get_handle (p : Pool) : Nat × Pool :=
  match p.curl_pool with
  | some c => (c, { p with curl_pool := none })
  | none => (p.made, { p with live := p.made :: p.live, made := p.made + 1 })

/-- The function `put_handle`. -/
def put_handle (p : Pool) (c : Nat) : Pool :=
  match p.curl_pool with
  | some old => { p with curl_pool := some c, live := p.live.erase old }
  | none => { p with curl_pool := some c }

/-! ## The request executor -/

/-- The authentication callback `http_client_auth_cb_t`: opaque context, retry
code and previous challenge (or NULL) to a credential (or NULL). -/
abbrev AuthCb := Nat → Nat → Option Bytes → Option String

/-- The configuration list of `http_client_request`: one constructor per
`HCR_TAG_*` case of the `switch`, with the payload read by `va_arg`.  Pointers
that may be NULL are options; a FILE or sink is named by a number.  An unknown
tag calls `abort()` and has no constructor. -/
inductive Tag where
  | ERRBUF (errbuf : Bool) (errsize : Nat)
  | ERR (err : Bool)
  | AUTHCB (auth_cb : Option AuthCb) (auth_context : Nat)
  | FLAGS (flags : Flags)
  | TIMEOUT (t : Int)
  | HEADER (a b : Option String)
  | PUTDATA (data : Option Bytes) (size : Nat) (ct : Option String)
  | POSTDATA (data : Option Bytes) (size : Nat) (ct : Option String)
  | POSTFIELDS (data : Bytes) (datalen : Nat)
  | POSTARGS (args : Option String)
  | POSTJSON (json : String)
  | POSTFILE (infile : Option Nat) (ct : Option String)
  | VERB (verb : Option String)
  | USERNPASS (username password : String)
  | OUTPUTFILE (outfile : Option Nat)
  | CURL_HANDLEPTR

/-- The output sink `outfile`: a FILE supplied by the caller, or the memory
stream opened by `open_buffer(&hcr->hcr_body, &hcr->hcr_bodysize)`. -/
inductive Outfile where
  | ext (f : Nat)
  | mem
deriving DecidableEq, Repr

/-- The options set on the transport handle by `curl_easy_setopt`. -/
inductive CurlOpt where
  | TIMEOUT (t : Int)
  | READDATA
  | SEEKDATA
  | PUT
  | UPLOAD
  | INFILESIZE_LARGE (n : Nat)
  | POST
  | POSTFIELDSIZE_LARGE (n : Nat)
  | POSTFIELDS (data : Bytes)
  | POSTFIELDSIZE (n : Nat)
  | COPYPOSTFIELDS (s : String)
  | CUSTOMREQUEST (verb : String)
  | USERNAME (s : String)
  | PASSWORD (s : String)
  | PROTOCOLS
  | URL (url : String)
  | FOLLOWLOCATION
  | WRITEDATA (o : Outfile)
  | USERAGENT
  | HEADERFUNCTION
  | HEADERDATA
  | VERBOSE
  | ACCEPT_ENCODING (s : String)
  | OPENSOCKETFUNCTION
  | OPENSOCKETDATA
  | HTTPHEADER (slist : List String)
deriving DecidableEq, Repr

/-- The function `append_header`: the line `a: b` is appended when both strings
are given. -/
def append_header (slist : List String) (a b : Option String) : List String :=
  match a, b with
  | some a, some b => slist ++ [a ++ ": " ++ b]
  | _, _ => slist

/-- The locals of `http_client_request` that live across `goto retry`, and the
options set on the handle since its last `curl_easy_reset`.  `auth_context` is
the pointer the code calls the callback's opaque context. -/
structure Locals where
  err : Bool
  errbuf : Bool
  errsize : Nat
  flags : Flags
  slist : List String
  www_authenticate_header : Option Bytes
  auth_cb : Option AuthCb
  auth_context : Nat
  outfile : Option Outfile
  infile : Option Nat
  memfile : Bool
  auth_retry_code : Nat
  opts : List CurlOpt

/-- The initial values of the locals. -/
def Locals.init : Locals :=
  { err := false, errbuf := false, errsize := 0, flags := Flags.zero, slist := [],
    www_authenticate_header := none, auth_cb := none, auth_context := 0,
    outfile := none, infile := none, memfile := false, auth_retry_code := 0,
    opts := [] }

/-- Shorthand for `curl_easy_setopt(curl, o, ...)`. -/
def Locals.setopt (l : Locals) (o : CurlOpt) : Locals := { l with opts := l.opts ++ [o] }

/-- One round of the `switch(tag)` inside the `while((tag = va_arg(ap, int)) != 0)`
loop. -/
def apply_tag (l : Locals) : Tag → Locals
  | .ERRBUF errbuf errsize => { l with errbuf := errbuf, errsize := errsize }
  | .ERR err => { l with err := err }
  | .AUTHCB cb o => { l with auth_cb := cb, auth_context := o }
  | .FLAGS f => { l with flags := f }
  | .TIMEOUT t => l.setopt (.TIMEOUT t)
  | .HEADER a b => { l with slist := append_header l.slist a b }
  | .PUTDATA none _ _ => l
  | .PUTDATA (some _) size ct =>
    ((((({ l with slist := append_header l.slist (some "Content-Type") ct }).setopt
      .READDATA).setopt .SEEKDATA).setopt .PUT).setopt .UPLOAD).setopt
      (.INFILESIZE_LARGE size)
  | .POSTDATA none _ _ => l
  | .POSTDATA (some _) size ct =>
    (((({ l with slist := append_header l.slist (some "Content-Type") ct }).setopt
      .READDATA).setopt .SEEKDATA).setopt .POST).setopt (.POSTFIELDSIZE_LARGE size)
  | .POSTFIELDS data datalen =>
    ((l.setopt .POST).setopt (.POSTFIELDS data)).setopt (.POSTFIELDSIZE datalen)
  | .POSTARGS none => l
  | .POSTARGS (some str) => (l.setopt .POST).setopt (.COPYPOSTFIELDS str)
  | .POSTJSON json =>
    let l1 := (l.setopt .POST).setopt (.COPYPOSTFIELDS json)
    { l1 with slist := append_header l1.slist (some "Content-Type") (some "application/json") }
  | .POSTFILE none _ => { l with infile := none }
  | .POSTFILE (some f) ct =>
    let l1 := ((({ l with infile := some f }).setopt .POST).setopt .READDATA).setopt .SEEKDATA
    { l1 with slist := append_header l1.slist (some "Content-Type") ct ++
        ["Transfer-Encoding: chunked"] }
  | .VERB none => l
  | .VERB (some verb) => l.setopt (.CUSTOMREQUEST verb)
  | .USERNPASS u p => (l.setopt (.USERNAME u)).setopt (.PASSWORD p)
  | .OUTPUTFILE f => { l with outfile := f.map Outfile.ext }
  | .CURL_HANDLEPTR => l

/-- What one `curl_easy_perform` reports: its `CURLcode` (0 is `CURLE_OK`), the
response code of `CURLINFO_RESPONSE_CODE`, the header lines handed to the
header callback, the body bytes written to the sink and the peer address of
`CURLINFO_PRIMARY_IP` (`none` when that query fails). -/
structure Reply where
  result : Nat
  response_code : Nat
  header_lines : List Bytes
  body : Bytes
  primary_ip : Option String
deriving DecidableEq, Repr

/-- The external collaborators: the transport (given the number of transfers
performed before and the options set on the handle), its error strings and
the JSON decoder, which returns a value or an error message. -/
structure Ext (J : Type) where
  curl_easy_perform : Nat → List CurlOpt → Reply
  curl_easy_strerror : Nat → String
  ntv_json_deserialize : Bytes → Except String J

/-- The state outside the call: the handle pool, the caller's error buffer and
error sink, the bytes written to caller-supplied sinks, and a record of the
transfers performed and of the invocations of the authentication callback
(opaque context, retry code, challenge). -/
structure World where
  pool : Pool
  errbuf : String
  errs : List String
  written : List (Nat × Bytes)
  performed : List (List CurlOpt)
  auth_calls : List (Nat × Nat × Option Bytes)
deriving DecidableEq, Repr

/-- A world in which nothing has happened yet. -/
def World.init : World :=
  { pool := Pool.empty, errbuf := "", errs := [], written := [], performed := [],
    auth_calls := [] }

/-- The call `snprintf(errbuf, errsize, "%s", msg)` on the caller's buffer: at most
`errsize - 1` characters are stored. -/
def snprintf_errbuf (l : Locals) (w : World) (msg : String) : World :=
  if l.errbuf ∧ 0 < l.errsize then { w with errbuf := ⟨msg.data.take (l.errsize - 1)⟩ }
  else w

/-- The call `err_push(err, "%s", msg)` on the caller's error sink. -/
def err_push (l : Locals) (w : World) (msg : String) : World :=
  if l.err then { w with errs := w.errs ++ [msg] } else w

/-- Lines 330 to 357: the default sink (`open_buffer` and `memfile = 1` when no
sink was given), the `Accept` line for `HCR_DECODE_BODY_AS_JSON`, and the
options that do not come from a tag, in the order of the code. -/
def configure (url : String) (l : Locals) : Locals :=
  { l with
    outfile := some (l.outfile.getD Outfile.mem)
    memfile := if l.outfile = none then true else l.memfile
    slist :=
      if l.flags.decode_body_as_json then
        append_header l.slist (some "Accept") (some "application/json")
      else l.slist
    opts := l.opts ++ [CurlOpt.PROTOCOLS, CurlOpt.URL url] ++
      (if l.flags.no_follow_redirect then [] else [CurlOpt.FOLLOWLOCATION]) ++
      [CurlOpt.WRITEDATA (l.outfile.getD Outfile.mem), CurlOpt.USERAGENT,
        CurlOpt.HEADERFUNCTION, CurlOpt.HEADERDATA] ++
      (if l.flags.verbose then [CurlOpt.VERBOSE] else []) ++
      (if l.flags.accept_gzip then [CurlOpt.ACCEPT_ENCODING "gzip"] else []) ++
      [CurlOpt.OPENSOCKETFUNCTION, CurlOpt.OPENSOCKETDATA] }

/-- Lines 189 to 357: the tag loop, then the default sink and the fixed options. -/
def build (url : String) (tags : List Tag) (l0 : Locals) : Locals :=
  configure url (tags.foldl apply_tag l0)

/-- Lines 359 to 367: the authentication callback is asked for a credential and
the header list is installed. -/
def authorize (l : Locals) (w : World) : Locals × World :=
  let lw : Locals × World :=
    match l.auth_cb with
    | none => (l, w)
    | some cb =>
      let w1 := { w with auth_calls := w.auth_calls ++
        [(l.auth_context, l.auth_retry_code, l.www_authenticate_header)] }
      match cb l.auth_context l.auth_retry_code l.www_authenticate_header with
      | none => (l, w1)
      | some auth =>
        ({ l with slist := append_header l.slist (some "Authorization") (some auth) }, w1)
  if lw.1.slist ≠ [] then (lw.1.setopt (.HTTPHEADER lw.1.slist), lw.2) else lw

/-- Lines 369 to 383: the transfer.  The header lines go through `hdrfunc` and
the body goes to the sink; the memory stream leaves the body and its size in
the response.  With `memfile` one more byte is written behind the body and
taken off the size again, so that `hcr_body` holds the counted bytes and is
followed by a NUL. -/
def transfer {J : Type} (reply : Reply) (l : Locals) (hcr : Response J) (w : World) :
    Locals × Response J × World :=
  let w1 := { w with performed := w.performed ++ [l.opts] }
  let hcr1 := feed_headers reply.header_lines hcr
  let l1 := { l with slist := [] }
  let s1 : Response J × World :=
    match l.outfile with
    | some (Outfile.ext f) => (hcr1, { w1 with written := w1.written ++ [(f, reply.body)] })
    | some Outfile.mem =>
      ({ hcr1 with hcr_body := some reply.body, hcr_bodysize := reply.body.length }, w1)
    | none => (hcr1, w1)
  let s2 : Response J × World :=
    if l.memfile then
      match l.outfile with
      | some (Outfile.ext f) =>
        ({ s1.1 with hcr_bodysize := s1.1.hcr_bodysize - 1 },
          { s1.2 with written := s1.2.written ++ [(f, [0])] })
      | _ => s1
    else s1
  (l1, s2.1, s2.2)

/-- Lines 400 to 452: the classification of the terminal attempt; the handle is
reset and given back to the pool. -/
def finish {J : Type} (x : Ext J) (curl : Nat) (reply : Reply) (l : Locals)
    (hcr : Response J) (w : World) : Nat × Response J × World :=
  let hcr1 := { hcr with hcr_http_status := reply.response_code,
                         hcr_transport_status := some "OK",
                         hcr_primary_ip :=
                           match reply.primary_ip with
                           | some ip => some ip
                           | none => hcr.hcr_primary_ip }
  let res : Nat × Response J × World :=
    if reply.result ≠ 0 then
      let msg := x.curl_easy_strerror reply.result
      (1, { hcr1 with hcr_transport_status := some msg, hcr_local_error := true },
        err_push l (snprintf_errbuf l w msg) msg)
    else if !l.flags.no_fail_on_error ∧ 400 ≤ reply.response_code then
      let msg := "HTTP Error " ++ toString reply.response_code
      (1, { hcr1 with hcr_errbuf := msg, hcr_transport_status := some msg },
        err_push l (snprintf_errbuf l w msg) msg)
    else if l.memfile then
      if l.flags.decode_body_as_json then
        match x.ntv_json_deserialize ((hcr1.hcr_body.getD []).takeWhile (fun b => b != 0)) with
        | .ok j => (0, { hcr1 with hcr_json_result := some j }, w)
        | .error e =>
          let w1 := err_push l w e
          let w2 := if l.errbuf then snprintf_errbuf l w1 e else w1
          (1, { hcr1 with hcr_malformed_json := true,
                          hcr_transport_status :=
                            if l.errbuf then some w2.errbuf else some "Bad JSON" }, w2)
      else (0, hcr1, w)
    else (0, hcr1, w)
  (res.1, res.2.1, { res.2.2 with pool := put_handle res.2.2.pool curl })

/-- One physical attempt, lines 187 to 387: the fresh header map, the tag loop
and the options, the authentication callback, the transfer and the response
code it reports.  `l`, `hcr` and `w` are the locals, the response and the world
at the label `retry`. -/
def attempt {J : Type} (x : Ext J) (url : String) (tags : List Tag) (l : Locals)
    (hcr : Response J) (w : World) : Reply × Locals × Response J × World :=
  let lw := authorize (build url tags l) w
  let reply := x.curl_easy_perform lw.2.performed.length lw.1.opts
  (reply, transfer reply lw.1 { hcr with hcr_headers := some [] } lw.2)

/-- Lines 390 to 396 on the way back to `retry`: the retry code, the captured
challenge, `curl_easy_reset` and `outfile = NULL`. -/
def retry_locals {J : Type} (l : Locals) (hcr : Response J) : Locals :=
  { l with auth_retry_code := 401,
           www_authenticate_header :=
             hcr.hcr_headers.bind (fun m => ntv_get_str m (cstr "www-authenticate")),
           opts := [], outfile := none }

/-- The body of `http_client_request` from the label `retry`.  Each round is one
physical attempt; `fuel` bounds the number of rounds and `none` means that it
ran out. -/
def request_loop {J : Type} (x : Ext J) (url : String) (tags : List Tag) (curl : Nat) :
    Nat → Locals → Response J → World → Option (Nat × Response J × World)
  | 0, _, _, _ => none
  | fuel + 1, l, hcr, w =>
    let a := attempt x url tags l hcr w
    if a.1.response_code = 401 ∧ a.2.1.auth_cb.isSome ∧ a.2.1.auth_retry_code = 0 then
      request_loop x url tags curl fuel (retry_locals a.2.1 a.2.2.1)
        (http_client_response_free a.2.2.1) a.2.2.2
    else some (finish x curl a.1 a.2.1 a.2.2.1 a.2.2.2)

/-- The function `http_client_request(hcr, url, tags..., 0)`: return value, filled
response and new world.  The caller's `hcr` is overwritten by `memset`, so it is
not an input. -/
def http_client_request {J : Type} (x : Ext J) (fuel : Nat) (url : String) (tags : List Tag)
    (w : World) : Option (Nat × Response J × World) :=
  let g := get_handle w.pool
  request_loop x url tags g.1 fuel Locals.init Response.zero { w with pool := g.2 }

/-! ## The ranged reader -/

/-- The record `http_client_file_t`: the URL and the cursor `fpos` (an `int64_t`). -/
structure HttpClientFile where
  url : String
  fpos : Int
deriving DecidableEq, Repr

/-- A 64-bit pattern read as `int64_t`. -/
def wrap64 (i : Int) : Int := (i + 2 ^ 63) % 2 ^ 64 - 2 ^ 63

/-- The text built by `snprintf(range, sizeof(range), "bytes=%"PRId64"-%"PRId64,
hcf->fpos, hcf->fpos + size - 1)`; the sum is computed in 64 bits. -/
def range_value (fpos : Int) (size : Nat) : String :=
  "bytes=" ++ toString fpos ++ "-" ++ toString (wrap64 (fpos + size - 1))

/-- The function `hof_read(fh, buf, size)`: return value, the bytes copied to
`buf`, the file record and the world afterwards. -/
def hof_read {J : Type} (x : Ext J) (fuel : Nat) (hcf : HttpClientFile) (size : Nat)
    (w : World) : Option (Int × Bytes × HttpClientFile × World) :=
  match http_client_request x fuel hcf.url
      [Tag.HEADER (some "Range") (some (range_value hcf.fpos size))] w with
  | none => none
  | some (rval, hcr, w1) =>
    if rval ≠ 0 then some (-1, [], hcf, w1)
    else if hcr.hcr_http_status ≠ 206 then some (-1, [], hcf, w1)
    else
      let xferd := min size hcr.hcr_bodysize
      some ((xferd : Int), (hcr.hcr_body.getD []).take xferd,
        { hcf with fpos := wrap64 (hcf.fpos + xferd) }, w1)

/-! ## The buffered stream adapter -/

/-- The shared fields of `http_streamed_file_t`.  `hsf_buffer` holds the bytes of
the `mbuf_t`, whose `mq_size` is their number.  Sizes and counters are `int`s
that the code keeps non-negative; the two byte counters are taken as numbers,
for streams of fewer than `INT_MAX` bytes. -/
structure Hsf where
  hsf_buffer : Bytes
  hsf_open : Bool
  hsf_eof : Bool
  hsf_need : Nat
  hsf_written : Nat
  hsf_read : Nat
deriving DecidableEq, Repr

/-- The state set up by `http_stream_file`: `calloc`, then `hsf_open = 1` and
`mbuf_init`. -/
def Hsf.opened : Hsf :=
  { hsf_buffer := [], hsf_open := true, hsf_eof := false, hsf_need := 0,
    hsf_written := 0, hsf_read := 0 }

/-- Modelled from the spec: `mbuf_append` is defined in libsvc's `mbuf.c`, which is
not among the sources: "append the chunk to the buffer". -/
def mbuf_append (mq : Bytes) (data : Bytes) : Bytes := mq ++ data

/-- Modelled from the spec: `mbuf_read` is defined in libsvc's `mbuf.c`, which is
not among the sources: "drain up to `size` bytes from the buffer".  It gives
the number of bytes delivered, these bytes and the remaining buffer. -/
def mbuf_read (mq : Bytes) (size : Nat) : Nat × Bytes × Bytes :=
  (min size mq.length, mq.take size, mq.drop size)

/-- The producer `hsf_write(aux, data, size)` with `size` bytes of `data`, given
the response code the handle reports.  `none` means that the thread waits on
the condition variable; otherwise the return value and the state after the
locked section. -/
def hsf_write (s : Hsf) (long_http_code : Nat) (data : Bytes) : Option (Nat × Hsf) :=
  if 400 ≤ long_http_code then some (data.length, s)
  else if s.hsf_need < s.hsf_buffer.length ∧ s.hsf_open then none
  else
    let s1 := { s with hsf_buffer := mbuf_append s.hsf_buffer data,
                       hsf_written := s.hsf_written + data.length }
    some (if s1.hsf_open then data.length else 0, s1)

/-- The first statement of the locked section of `hsf_read`:
`hsf->hsf_need = MIN(size, 65536)`. -/
def hsf_read_enter (s : Hsf) (size : Nat) : Hsf := { s with hsf_need := min size 65536 }

/-- The negated loop condition of `hsf_read`: the consumer may go on. -/
def hsf_read_ready (s : Hsf) : Bool := s.hsf_eof || decide (s.hsf_need ≤ s.hsf_buffer.length)

/-- The statements of `hsf_read` behind the loop: `mbuf_read` and the read
counter.  Return value, bytes delivered, state. -/
def hsf_read_drain (s : Hsf) (size : Nat) : Nat × Bytes × Hsf :=
  let r := mbuf_read s.hsf_buffer size
  (r.1, r.2.1, { s with hsf_buffer := r.2.2, hsf_read := s.hsf_read + r.1 })

/-- The consumer `hsf_read(aux, data, size)` when it does not have to wait:
return value, bytes delivered and state; `none` when it waits on the condition
variable (with `hsf_need` already set). -/
def hsf_read (s : Hsf) (size : Nat) : Option (Nat × Bytes × Hsf) :=
  let s1 := hsf_read_enter s size
  if hsf_read_ready s1 then some (hsf_read_drain s1 size) else none

/-- The adapter as a transition system: the shared state and the read the
consumer is inside of, if any. -/
structure Sys where
  hsf : Hsf
  reading : Option Nat
deriving DecidableEq, Repr

/-- The freshly opened stream. -/
def Sys.opened : Sys := { hsf := Hsf.opened, reading := none }

/-- The locked sections as events: a producer write that gets through; the
consumer calling `hsf_read`, which sets the need and either delivers at once
or starts to wait; the waiting consumer going on after a wake-up and
delivering; the producer thread setting `hsf_eof`; and `hsf_close` clearing
`hsf_open`. -/
inductive Event where
  | write (long_http_code : Nat) (data : Bytes)
  | read_enter (size : Nat)
  | read_leave
  | eof
  | close
deriving DecidableEq, Repr

/-- One event; `none` when the event cannot happen in this state (the thread is
waiting, or is not at that point of its program). -/
def step (s : Sys) : Event → Option Sys
  | .write code data =>
    if s.hsf.hsf_eof then none
    else (hsf_write s.hsf code data).map (fun r => { s with hsf := r.2 })
  | .read_enter size =>
    match s.reading with
    | some _ => none
    | none =>
      if s.hsf.hsf_open then
        if hsf_read_ready (hsf_read_enter s.hsf size) then
          some { hsf := (hsf_read_drain (hsf_read_enter s.hsf size) size).2.2, reading := none }
        else some { hsf := hsf_read_enter s.hsf size, reading := some size }
      else none
  | .read_leave =>
    match s.reading with
    | none => none
    | some size =>
      if hsf_read_ready s.hsf then
        some { hsf := (hsf_read_drain s.hsf size).2.2, reading := none }
      else none
  | .eof => if s.hsf.hsf_eof then none else some { s with hsf := { s.hsf with hsf_eof := true } }
  | .close =>
    match s.reading with
    | some _ => none
    | none => some { s with hsf := { s.hsf with hsf_open := false } }

/-- A run: the events one after the other. -/
def run : Sys → List Event → Option Sys
  | s, [] => some s
  | s, e :: es => (step s e).bind (fun s1 => run s1 es)

/-! ## Sequential use of the pool -/

/-- One acquire/release cycle: `get_handle`, then `put_handle` of the handle it
returned (as `http_client_request` does at its start and end). -/
def cycle (p : Pool) : Pool := put_handle (get_handle p).2 (get_handle p).1

/-- The pool after `n` cycles. -/
def cycles : Nat → Pool → Pool
  | 0, p => p
  | n + 1, p => cycle (cycles n p)

/-! ## Header lines of the form `Name: value` -/

/-- A header name: not empty, of visible ASCII bytes other than the colon. -/
def is_name (n : Bytes) : Bool :=
  n != [] && n.all (fun b => decide (33 ≤ b ∧ b ≤ 126 ∧ b ≠ 58))

/-- A header value: it starts with a visible ASCII byte and holds no NUL, LF or
CR. -/
def is_value : Bytes → Bool
  | [] => false
  | b :: rest =>
    decide (33 ≤ b ∧ b ≤ 126) && (b :: rest).all (fun c => decide (c ≠ 0 ∧ c ≠ 10 ∧ c ≠ 13))

/-- The received line `Name: value` followed by CR LF. -/
def header_line (n v : Bytes) : Bytes := n ++ [58, 32] ++ v ++ [13, 10]

/-- The response as the transport finds it: zeroed, with the empty header map of
`hcr->hcr_headers = ntv_create_map()`. -/
def Response.fresh {J : Type} : Response J := { (Response.zero : Response J) with hcr_headers := some [] }

/-- The header map of a response, empty when there is none. -/
def Response.headers {J : Type} (hcr : Response J) : Ntv := hcr.hcr_headers.getD []

/-- The effect of one `hdrfunc` call on the header map. -/
def hdr_store (m : Ntv) (ptr : Bytes) : Ntv :=
  match hdr_parse ptr with
  | none => m
  | some (name, value) => ntv_set_str m name value

/-- An upper-case ASCII letter. -/
def is_upper (b : Nat) : Prop := 65 ≤ b ∧ b ≤ 90

/-! ## Notions used to state the properties of a call -/

/-- The locals after the tag loop of the first attempt. -/
def call_locals (tags : List Tag) : Locals := tags.foldl apply_tag Locals.init

/-- The world of a call once `get_handle` has run. -/
def World.acquired (w : World) : World := { w with pool := (get_handle w.pool).2 }

/-- The first physical attempt of the call `http_client_request(hcr, url, tags)`. -/
def first_attempt {J : Type} (x : Ext J) (url : String) (tags : List Tag) (w : World) :
    Reply × Locals × Response J × World :=
  attempt x url tags Locals.init Response.zero w.acquired

/-- The second physical attempt of a call whose first attempt is retried. -/
def second_attempt {J : Type} (x : Ext J) (url : String) (tags : List Tag) (w : World) :
    Reply × Locals × Response J × World :=
  let a := first_attempt x url tags w
  attempt x url tags (retry_locals a.2.1 a.2.2.1) (http_client_response_free a.2.2.1) a.2.2.2

/-- The condition of line 389 on the first attempt: status 401 and a callback. -/
def retries {J : Type} (x : Ext J) (url : String) (tags : List Tag) (w : World) : Prop :=
  (first_attempt x url tags w).1.response_code = 401 ∧ (call_locals tags).auth_cb.isSome = true

instance {J : Type} (x : Ext J) (url : String) (tags : List Tag) (w : World) :
    Decidable (retries x url tags w) := by
  unfold retries
  exact inferInstance

/-- The terminal attempt of a call: the second one if the first is retried. -/
def terminal_attempt {J : Type} (x : Ext J) (url : String) (tags : List Tag) (w : World) :
    Reply × Locals × Response J × World :=
  if retries x url tags w then second_attempt x url tags w else first_attempt x url tags w

/-- The JSON decoder rejects the body held in the response. -/
def json_fails {J : Type} (x : Ext J) (hcr : Response J) : Bool :=
  match x.ntv_json_deserialize ((hcr.hcr_body.getD []).takeWhile (fun b => b != 0)) with
  | .ok _ => false
  | .error _ => true

/-- How the locals of two runs of the tag loop are related, the runs having
started from `a0` and `b0`: a setting is the same in both or untouched in
both, the lists have grown by the same lines and options, and the tag loop
leaves `memfile`, the retry code and the challenge alone. -/
def tags_rel (a0 b0 a b : Locals) : Prop :=
  (a.err = b.err ∨ (a.err = a0.err ∧ b.err = b0.err)) ∧
  (a.errbuf = b.errbuf ∨ (a.errbuf = a0.errbuf ∧ b.errbuf = b0.errbuf)) ∧
  (a.errsize = b.errsize ∨ (a.errsize = a0.errsize ∧ b.errsize = b0.errsize)) ∧
  (a.flags = b.flags ∨ (a.flags = a0.flags ∧ b.flags = b0.flags)) ∧
  (a.auth_cb = b.auth_cb ∨ (a.auth_cb = a0.auth_cb ∧ b.auth_cb = b0.auth_cb)) ∧
  (a.auth_context = b.auth_context ∨
    (a.auth_context = a0.auth_context ∧ b.auth_context = b0.auth_context)) ∧
  (a.infile = b.infile ∨ (a.infile = a0.infile ∧ b.infile = b0.infile)) ∧
  (a.outfile = b.outfile ∨ (a.outfile = a0.outfile ∧ b.outfile = b0.outfile)) ∧
  (∃ c, a.slist = a0.slist ++ c ∧ b.slist = b0.slist ++ c) ∧
  (∃ c, a.opts = a0.opts ++ c ∧ b.opts = b0.opts ++ c) ∧
  a.memfile = a0.memfile ∧ b.memfile = b0.memfile ∧
  a.auth_retry_code = a0.auth_retry_code ∧ b.auth_retry_code = b0.auth_retry_code ∧
  a.www_authenticate_header = a0.www_authenticate_header ∧
  b.www_authenticate_header = b0.www_authenticate_header

/-- Two sets of locals that differ at most in the retry code, the challenge, the
header list and the options set. -/
def same_setup (a b : Locals) : Prop :=
  a.err = b.err ∧ a.errbuf = b.errbuf ∧ a.errsize = b.errsize ∧ a.flags = b.flags ∧
  a.auth_cb = b.auth_cb ∧ a.auth_context = b.auth_context ∧ a.infile = b.infile ∧
  a.outfile = b.outfile ∧ a.memfile = b.memfile

/-- The effect of one option on the header list the transport will use. -/
def header_step (acc : List String) : CurlOpt → List String
  | CurlOpt.HTTPHEADER slist => slist
  | _ => acc

/-- The header list the transport uses: the one installed by the last
`CURLOPT_HTTPHEADER`, empty when none was installed. -/
def request_headers (opts : List CurlOpt) : List String := opts.foldl header_step []

/-- The line that `append_header(slist, "Authorization", auth)` adds for what the
callback returned. -/
def credential_line : Option String → List String
  | some auth => ["Authorization: " ++ auth]
  | none => []

/-- The header lines of a call that do not come from the callback: those of the
tags and the `Accept` line. -/
def base_headers (url : String) (tags : List Tag) : List String :=
  (build url tags Locals.init).slist

/-- The challenge captured at line 391 from the header lines of a reply. -/
def challenge_of (reply : Reply) : Option Bytes :=
  ntv_get_str (reply.header_lines.foldl hdr_store []) (cstr "www-authenticate")

/-- The response that one attempt answered by `reply` fills when it starts from
a zeroed response and is not retried. -/
def single_fill {J : Type} (x : Ext J) (url : String) (tags : List Tag) (reply : Reply)
    (w : World) : Response J :=
  let lw := authorize (build url tags Locals.init) w
  let t := transfer reply lw.1 (Response.fresh : Response J) lw.2
  (finish x 0 reply t.1 t.2.1 t.2.2).2.1

/-- A transport for examples: it answers the first transfer with `r1` and every
later one with `r2`; error strings and decoder are stand-ins. -/
def Ext.answers (r1 r2 : Reply) : Ext Nat :=
  { curl_easy_perform := fun n _ => if n = 0 then r1 else r2
    curl_easy_strerror := fun c => "curl error " ++ toString c
    ntv_json_deserialize := fun b => if b = [] then .error "empty" else .ok b.length }

/-- An example reply: 401 with a challenge. -/
def reply_401 : Reply :=
  { result := 0, response_code := 401,
    header_lines := [cstr "HTTP/1.1 401 Unauthorized\r\n",
      cstr "WWW-Authenticate: Basic realm=x\r\n", cstr "X-First: 1\r\n", cstr "\r\n"],
    body := cstr "denied", primary_ip := some "192.0.2.1" }

/-- An example reply: 200 with a five-byte body. -/
def reply_200 : Reply :=
  { result := 0, response_code := 200,
    header_lines := [cstr "HTTP/1.1 200 OK\r\n", cstr "Content-Type: text/plain\r\n",
      cstr "\r\n"],
    body := cstr "hello", primary_ip := some "192.0.2.1" }

/-- An example callback that has a credential only for the retry. -/
def cb_on_retry : AuthCb := fun _ code _ => if code = 401 then some "Bearer t" else none

/-- An example callback that always has a credential. -/
def cb_always : AuthCb := fun _ _ _ => some "Basic abc"

/-! ## Notions used to state the properties of the ranged reader -/

/-- The tag list of the request issued by `hof_read`. -/
def range_tags (fpos : Int) (size : Nat) : List Tag :=
  [Tag.HEADER (some "Range") (some (range_value fpos size))]

/-- The options of the transfer performed for `hof_read`: the fixed options and
the header list holding the `Range` line. -/
def range_request (url : String) (range : String) : List CurlOpt :=
  [CurlOpt.PROTOCOLS, CurlOpt.URL url, CurlOpt.FOLLOWLOCATION, CurlOpt.WRITEDATA Outfile.mem,
    CurlOpt.USERAGENT, CurlOpt.HEADERFUNCTION, CurlOpt.HEADERDATA, CurlOpt.OPENSOCKETFUNCTION,
    CurlOpt.OPENSOCKETDATA, CurlOpt.HTTPHEADER ["Range: " ++ range]]

/-- A decimal number. -/
def parse_nat (cs : List Char) : Option Nat :=
  if cs = [] ∨ cs.any (fun c => !c.isDigit) then none
  else some (cs.foldl (fun n c => 10 * n + (c.toNat - 48)) 0)

/-- The two numbers of a header line `Range: bytes=first-last`. -/
def parse_range (line : String) : Option (Nat × Nat) :=
  if line.data.take 13 = "Range: bytes=".data then
    let rest := line.data.drop 13
    match rest.dropWhile Char.isDigit with
    | [] => none
    | c :: last =>
      if c.toNat = 45 then
        match parse_nat (rest.takeWhile Char.isDigit), parse_nat last with
        | some a, some b => some (a, b)
        | _, _ => none
      else none
  else none

/-- A server holding one resource and serving byte ranges as HTTP servers do
(RFC 7233): a range that starts inside the resource is answered with 206 and
the bytes from `first` to `last`, cut at the end of the resource; a range that
starts at or behind the end of the resource is answered with 416 (Range Not
Satisfiable); a request without a range is answered with 200 and the whole
resource.  The transport itself never fails. -/
def range_server (resource : Bytes) : Ext Nat :=
  { curl_easy_perform := fun _ opts =>
      match (request_headers opts).findSome? parse_range with
      | some (first, last) =>
        if first < resource.length ∧ first ≤ last then
          { result := 0, response_code := 206,
            header_lines := [cstr "HTTP/1.1 206 Partial Content\r\n", cstr "\r\n"],
            body := (resource.drop first).take (last + 1 - first), primary_ip := none }
        else
          { result := 0, response_code := 416,
            header_lines := [cstr "HTTP/1.1 416 Range Not Satisfiable\r\n", cstr "\r\n"],
            body := [], primary_ip := none }
      | none =>
        { result := 0, response_code := 200,
          header_lines := [cstr "HTTP/1.1 200 OK\r\n", cstr "\r\n"],
          body := resource, primary_ip := none }
    curl_easy_strerror := fun c => "curl error " ++ toString c
    ntv_json_deserialize := fun b => if b = [] then .error "empty" else .ok b.length }

/-! ## Notions used to state the backpressure bound -/

/-- The need an event sets: `min size 65536` for a consumer entering a read. -/
def need_of : Event → Nat
  | .read_enter size => min size 65536
  | _ => 0

/-- The number of bytes an event appends to the buffer. -/
def write_of : Event → Nat
  | .write code data => if 400 ≤ code then 0 else data.length
  | _ => 0

/-- The largest need set during a run. -/
def max_need (es : List Event) : Nat := es.foldr (fun e n => max (need_of e) n) 0

/-- The size of the largest producer write of a run. -/
def max_write (es : List Event) : Nat := es.foldr (fun e n => max (write_of e) n) 0

/-- A run in which the consumer asks for ten bytes and later for one, while the
producer writes five bytes at a time: the first read has to wait, the second
is served at once. -/
def shrinking_reads : List Event :=
  [.read_enter 10, .write 200 [1, 2, 3, 4, 5], .write 200 [1, 2, 3, 4, 5],
    .write 200 [1, 2, 3, 4, 5], .read_leave, .write 200 [1, 2, 3, 4, 5],
    .write 200 [1, 2, 3, 4, 5], .read_enter 1]

/-! # Theorems -/

/-! ## Handle pool -/

theorem cycles_succ_empty (n : Nat) :
    cycles (n + 1) Pool.empty = { curl_pool := some 0, live := [0], made := 1 } := by
  induction n with
  | zero => rfl
  | succ k ih =>
    show cycle (cycles (k + 1) Pool.empty) = _
    rw [ih]
    rfl

/-- C10: from the empty pool, before, inside and after each of any number of
sequential acquire/release cycles at most one handle is live and the slot
holds at most one handle; one handle has been constructed in total once the
first acquire is done, so no later acquire constructs, and the acquire of the
next cycle returns the handle this cycle released. -/
theorem C10_pool_sequential_cycles (n : Nat) :
    (cycles n Pool.empty).live.length ≤ 1 ∧
    (get_handle (cycles n Pool.empty)).2.live.length ≤ 1 ∧
    (cycle (cycles n Pool.empty)).live.length ≤ 1 ∧
    (cycles n Pool.empty).curl_pool.toList.length ≤ 1 ∧
    (get_handle (cycles n Pool.empty)).2.curl_pool = none ∧
    (cycles n Pool.empty).made = (if n = 0 then 0 else 1) ∧
    (get_handle (cycles n Pool.empty)).2.made = 1 ∧
    (cycle (cycles n Pool.empty)).curl_pool = some (get_handle (cycles n Pool.empty)).1 ∧
    (get_handle (cycle (cycles n Pool.empty))).1 = (get_handle (cycles n Pool.empty)).1 ∧
    (get_handle (cycle (cycles n Pool.empty))).2.made =
      (get_handle (cycles n Pool.empty)).2.made := by
  cases n with
  | zero => decide
  | succ k =>
    rw [cycles_succ_empty, if_neg (Nat.succ_ne_zero k)]
    decide

/-! ## Consumer read -/

/-- C8: for a read size above zero, in a state where the consumer may go on (eof
set or at least `min size 65536` bytes buffered), `hsf_read` returns: it sets
`hsf_need` to `min size 65536`, delivers the first `min size buffered` bytes,
leaves the rest in the buffer and adds the count to the read counter; the
count is zero only with eof set and an empty buffer, and is not zero while
bytes are buffered. -/
theorem C8_hsf_read_delivers (s : Hsf) (size : Nat) (hsize : 0 < size)
    (hgo : s.hsf_eof = true ∨ min size 65536 ≤ s.hsf_buffer.length) :
    ∃ r data s1, hsf_read s size = some (r, data, s1) ∧
      s1.hsf_need = min size 65536 ∧
      r = min size s.hsf_buffer.length ∧
      data = s.hsf_buffer.take r ∧
      s1.hsf_buffer = s.hsf_buffer.drop r ∧
      s.hsf_buffer = data ++ s1.hsf_buffer ∧
      s1.hsf_read = s.hsf_read + r ∧
      s1.hsf_written = s.hsf_written ∧ s1.hsf_open = s.hsf_open ∧ s1.hsf_eof = s.hsf_eof ∧
      (r = 0 → s.hsf_eof = true ∧ s.hsf_buffer = []) ∧
      (s.hsf_buffer ≠ [] → r ≠ 0) := by
  have hready : hsf_read_ready (hsf_read_enter s size) = true := by
    simp only [hsf_read_ready, hsf_read_enter, Bool.or_eq_true, decide_eq_true_eq]
    exact hgo
  have hlen : ∀ b : Bytes, b ≠ [] → 0 < b.length := fun b hb =>
    List.length_pos.mpr hb
  refine ⟨min size s.hsf_buffer.length, s.hsf_buffer.take size,
    { hsf_read_enter s size with
      hsf_buffer := s.hsf_buffer.drop size,
      hsf_read := s.hsf_read + min size s.hsf_buffer.length }, ?_, rfl, rfl, ?_, ?_, ?_,
    rfl, rfl, rfl, rfl, ?_, ?_⟩
  · show (if hsf_read_ready (hsf_read_enter s size) = true then _ else _) = _
    rw [if_pos hready]
    rfl
  · show s.hsf_buffer.take size = s.hsf_buffer.take (min size s.hsf_buffer.length)
    rcases Nat.le_total size s.hsf_buffer.length with h | h
    · rw [Nat.min_eq_left h]
    · rw [Nat.min_eq_right h, List.take_length, List.take_of_length_le h]
  · show s.hsf_buffer.drop size = s.hsf_buffer.drop (min size s.hsf_buffer.length)
    rcases Nat.le_total size s.hsf_buffer.length with h | h
    · rw [Nat.min_eq_left h]
    · rw [Nat.min_eq_right h, List.drop_length, List.drop_eq_nil_of_le h]
  · exact (List.take_append_drop size s.hsf_buffer).symm
  · intro hr
    have hb : s.hsf_buffer.length = 0 := by omega
    have hnil : s.hsf_buffer = [] := List.length_eq_zero.mp hb
    refine ⟨?_, hnil⟩
    rcases hgo with h | h
    · exact h
    · omega
  · intro hb
    have := hlen _ hb
    omega

/-- A stream with three buffered bytes and a read of two. -/
theorem C8_hsf_read_delivers_witness :
    ∃ r data s1,
      hsf_read { Hsf.opened with hsf_buffer := [7, 8, 9] } 2 = some (r, data, s1) ∧
      s1.hsf_need = min 2 65536 ∧ r = min 2 3 ∧ data = [7, 8] ∧ s1.hsf_buffer = [9] :=
  (C8_hsf_read_delivers { Hsf.opened with hsf_buffer := [7, 8, 9] } 2 (by decide)
    (Or.inr (by decide))).imp fun _ h => h.imp fun _ h => h.imp fun _ h =>
      ⟨h.1, h.2.1, h.2.2.1, by rw [h.2.2.2.1, h.2.2.1]; rfl, by rw [h.2.2.2.2.1, h.2.2.1]; rfl⟩

/-! ## Header capture -/

theorem takeWhile_append_stop {α : Type} (p : α → Bool) (a : List α) (b : α) (c : List α)
    (ha : ∀ x ∈ a, p x = true) (hb : p b = false) : (a ++ b :: c).takeWhile p = a := by
  induction a with
  | nil => simp [List.takeWhile, hb]
  | cons x xs ih =>
    have hx : p x = true := ha x (List.mem_cons_self _ _)
    have hxs : ∀ y ∈ xs, p y = true := fun y hy => ha y (List.mem_cons_of_mem _ hy)
    simp [List.takeWhile, hx, ih hxs]

theorem dropWhile_append_stop {α : Type} (p : α → Bool) (a : List α) (b : α) (c : List α)
    (ha : ∀ x ∈ a, p x = true) (hb : p b = false) : (a ++ b :: c).dropWhile p = b :: c := by
  induction a with
  | nil => simp [List.dropWhile, hb]
  | cons x xs ih =>
    have hx : p x = true := ha x (List.mem_cons_self _ _)
    have hxs : ∀ y ∈ xs, p y = true := fun y hy => ha y (List.mem_cons_of_mem _ hy)
    simp [List.dropWhile, hx, ih hxs]

theorem tok_scan_visible (b : Nat) (h1 : 33 ≤ b) (h2 : b ≤ 126) : tok_scan (-1) b = true := by
  have hs : schar b = (b : Int) := by simp [schar]; omega
  simp only [tok_scan, hs, Bool.and_eq_true, decide_eq_true_eq]
  constructor <;> omega

theorem tok_skip_visible (b : Nat) (h1 : 33 ≤ b) (h2 : b ≤ 126) : tok_skip (-1) b = false := by
  have hs : schar b = (b : Int) := by simp [schar]; omega
  simp only [tok_skip, hs, Bool.or_eq_false_iff, Bool.and_eq_false_iff, decide_eq_false_iff_not]
  constructor
  · right; omega
  · omega

theorem is_name_spec {n : Bytes} (h : is_name n = true) :
    n ≠ [] ∧ ∀ b ∈ n, 33 ≤ b ∧ b ≤ 126 ∧ b ≠ 58 := by
  simp only [is_name, Bool.and_eq_true, bne_iff_ne, ne_eq, List.all_eq_true,
    decide_eq_true_eq] at h
  exact h

theorem is_value_spec {v : Bytes} (h : is_value v = true) :
    ∃ b rest, v = b :: rest ∧ 33 ≤ b ∧ b ≤ 126 ∧ ∀ c ∈ v, c ≠ 0 ∧ c ≠ 10 ∧ c ≠ 13 := by
  cases v with
  | nil => simp [is_value] at h
  | cons b rest =>
    simp only [is_value, Bool.and_eq_true, List.all_eq_true, decide_eq_true_eq] at h
    exact ⟨b, rest, rfl, h.1.1, h.1.2, h.2⟩

theorem cut_line_header_line {n v : Bytes} (hn : is_name n = true) (hv : is_value v = true) :
    cut_line (header_line n v) = n ++ 58 :: 32 :: v := by
  obtain ⟨_, hnb⟩ := is_name_spec hn
  obtain ⟨_, _, _, _, _, hvb⟩ := is_value_spec hv
  have e : header_line n v = (n ++ 58 :: 32 :: v) ++ 13 :: [10] := by
    simp [header_line]
  rw [cut_line, e]
  apply takeWhile_append_stop
  · intro x hx
    have hx0 : x ≠ 0 ∧ x ≠ 10 ∧ x ≠ 13 := by
      rcases List.mem_append.mp hx with h | h
      · have := hnb x h
        omega
      · rcases List.mem_cons.mp h with h | h
        · omega
        · rcases List.mem_cons.mp h with h | h
          · omega
          · exact hvb x h
    simp [hx0.1, hx0.2.1, hx0.2.2]
  · decide

theorem str_tokenize_name_value {n v : Bytes} (hn : is_name n = true) (hv : is_value v = true) :
    str_tokenize (n ++ 58 :: 32 :: v) 2 (-1) = [n ++ [58], v] := by
  obtain ⟨hne, hnb⟩ := is_name_spec hn
  obtain ⟨b, rest, rfl, hb1, hb2, -⟩ := is_value_spec hv
  obtain ⟨a, n1, rfl⟩ := List.exists_cons_of_ne_nil hne
  have ha := hnb a (List.mem_cons_self _ _)
  have hscan : ∀ x ∈ (a :: n1) ++ [58], tok_scan (-1) x = true := by
    intro x hx
    rcases List.mem_append.mp hx with h | h
    · have := hnb x h
      exact tok_scan_visible x this.1 this.2.1
    · rw [List.mem_singleton.mp h]; decide
  have e : (a :: n1) ++ 58 :: 32 :: b :: rest = ((a :: n1) ++ [58]) ++ 32 :: (b :: rest) := by simp
  have hlen : ((a :: n1) ++ 58 :: 32 :: b :: rest).length + 1 = (n1.length + rest.length + 3) + 1 + 1 := by
    simp; omega
  rw [str_tokenize, hlen]
  have hd1 : ((a :: n1) ++ 58 :: 32 :: b :: rest).dropWhile (tok_skip (-1)) =
      a :: (n1 ++ 58 :: 32 :: b :: rest) := by
    simp [List.dropWhile, tok_skip_visible a ha.1 ha.2.1]
  have ht : (a :: (n1 ++ 58 :: 32 :: b :: rest)).takeWhile (tok_scan (-1)) = (a :: n1) ++ [58] := by
    have := takeWhile_append_stop (tok_scan (-1)) ((a :: n1) ++ [58]) 32 (b :: rest) hscan (by decide)
    simpa using this
  have hd : (a :: (n1 ++ 58 :: 32 :: b :: rest)).dropWhile (tok_scan (-1)) = 32 :: b :: rest := by
    have := dropWhile_append_stop (tok_scan (-1)) ((a :: n1) ++ [58]) 32 (b :: rest) hscan (by decide)
    simpa using this
  have hd2 : (b :: rest).dropWhile (tok_skip (-1)) = b :: rest := by
    simp [List.dropWhile, tok_skip_visible b hb1 hb2]
  simp only [str_tokenize_loop, hd1, ht, hd, hd2]
  simp

theorem cut_at_last_colon_name (n : Bytes) : cut_at_last_colon (n ++ [58]) = some n := by
  simp [cut_at_last_colon, List.dropWhile]

theorem hdr_parse_header_line {n v : Bytes} (hn : is_name n = true) (hv : is_value v = true) :
    hdr_parse (header_line n v) = some (lowercase n, v) := by
  simp only [hdr_parse, cut_line_header_line hn hv, str_tokenize_name_value hn hv,
    cut_at_last_colon_name]

theorem ntv_get_set_same (m : Ntv) (k v : Bytes) : ntv_get_str (ntv_set_str m k v) k = some v := by
  induction m with
  | nil => simp [ntv_set_str, ntv_get_str]
  | cons p rest ih =>
    obtain ⟨k0, v0⟩ := p
    by_cases h : k0 = k
    · simp [ntv_set_str, ntv_get_str, h]
    · simp [ntv_set_str, ntv_get_str, h, ih]

theorem ntv_get_set_other (m : Ntv) (k v k1 : Bytes) (hk : k1 ≠ k) :
    ntv_get_str (ntv_set_str m k v) k1 = ntv_get_str m k1 := by
  induction m with
  | nil => simp [ntv_set_str, ntv_get_str, Ne.symm hk]
  | cons p rest ih =>
    obtain ⟨k0, v0⟩ := p
    by_cases h : k0 = k
    · subst h
      simp [ntv_set_str, ntv_get_str, Ne.symm hk]
    · by_cases h1 : k0 = k1
      · subst h1
        simp [ntv_set_str, ntv_get_str, h]
      · simp [ntv_set_str, ntv_get_str, h, h1, ih]

theorem ntv_set_keys (m : Ntv) (k v : Bytes) (p : Bytes × Bytes) (hp : p ∈ ntv_set_str m k v) :
    p.1 = k ∨ ∃ q ∈ m, q.1 = p.1 := by
  induction m with
  | nil =>
    simp only [ntv_set_str, List.mem_singleton] at hp
    left; rw [hp]
  | cons q rest ih =>
    obtain ⟨k0, v0⟩ := q
    by_cases h : k0 = k
    · simp only [ntv_set_str, h, if_true, List.mem_cons] at hp
      rcases hp with hp | hp
      · left; rw [hp]
      · right; exact ⟨p, List.mem_cons_of_mem _ hp, rfl⟩
    · simp only [ntv_set_str, h, if_false, List.mem_cons] at hp
      rcases hp with hp | hp
      · right; exact ⟨(k0, v0), List.mem_cons_self _ _, by rw [hp]⟩
      · rcases ih hp with h1 | ⟨q, hq, hq1⟩
        · left; exact h1
        · right; exact ⟨q, List.mem_cons_of_mem _ hq, hq1⟩

theorem lowercase_no_upper (n : Bytes) : ∀ b ∈ lowercase n, ¬ is_upper b := by
  intro b hb
  simp only [lowercase, List.mem_map] at hb
  obtain ⟨a, -, rfl⟩ := hb
  unfold tolower is_upper
  split <;> omega

theorem hdr_parse_key_lower (l : Bytes) (x : Bytes × Bytes) (h : hdr_parse l = some x) :
    ∀ b ∈ x.1, ¬ is_upper b := by
  unfold hdr_parse at h
  split at h
  · split at h
    · cases h
    · cases h
      exact lowercase_no_upper _
  · cases h

theorem hdrfunc_headers {J : Type} (l : Bytes) (hcr : Response J) :
    (hdrfunc l hcr).2.hcr_headers = hcr.hcr_headers.map (fun m => hdr_store m l) := by
  unfold hdrfunc hdr_store
  cases hp : hdr_parse l with
  | none =>
    show hcr.hcr_headers = _
    cases hcr.hcr_headers <;> rfl
  | some x => rfl

theorem feed_headers_map {J : Type} (lines : List Bytes) (hcr : Response J) :
    (feed_headers lines hcr).hcr_headers =
      hcr.hcr_headers.map (fun m => lines.foldl hdr_store m) := by
  induction lines generalizing hcr with
  | nil =>
    show hcr.hcr_headers = _
    cases hcr.hcr_headers <;> rfl
  | cons l ls ih =>
    show (feed_headers ls (hdrfunc l hcr).2).hcr_headers = _
    rw [ih, hdrfunc_headers]
    cases hcr.hcr_headers <;> rfl

theorem foldl_store_keys_lower (lines : List Bytes) (m : Ntv)
    (hm : ∀ p ∈ m, ∀ b ∈ p.1, ¬ is_upper b) :
    ∀ p ∈ lines.foldl hdr_store m, ∀ b ∈ p.1, ¬ is_upper b := by
  induction lines generalizing m with
  | nil => exact hm
  | cons l ls ih =>
    apply ih
    intro p hp
    unfold hdr_store at hp
    cases hx : hdr_parse l with
    | none => rw [hx] at hp; exact hm p hp
    | some x =>
      rw [hx] at hp
      rcases ntv_set_keys m x.1 x.2 p hp with h | ⟨q, hq, hq1⟩
      · rw [h]; exact hdr_parse_key_lower l x hx
      · rw [← hq1]; exact hm q hq

theorem foldl_store_keeps (post : List Bytes) (m : Ntv) (k v : Bytes)
    (hm : ntv_get_str m k = some v)
    (hpost : ∀ l ∈ post, ∀ x, hdr_parse l = some x → x.1 ≠ k) :
    ntv_get_str (post.foldl hdr_store m) k = some v := by
  induction post generalizing m with
  | nil => exact hm
  | cons l ls ih =>
    apply ih
    · unfold hdr_store
      cases hx : hdr_parse l with
      | none => exact hm
      | some x =>
        have := hpost l (List.mem_cons_self _ _) x hx
        show ntv_get_str (ntv_set_str m x.1 x.2) k = some v
        rw [ntv_get_set_other m x.1 x.2 k (Ne.symm this)]
        exact hm
    · intro l1 hl1
      exact hpost l1 (List.mem_cons_of_mem _ hl1)

/-- C5 (amended): after any sequence of lines fed to `hdrfunc`, no name in the
header map holds an upper-case ASCII letter; a line `Name: value` CR LF is
stored under the lower-cased Name with that value, split at the colon that
ends the name; and the map holds that value as long as no later line is stored
under the same name, where a later line is stored under a name whenever
`hdrfunc` parses it so, whatever its form. -/
theorem C5_header_map_last_stored_wins (J : Type) (lines : List Bytes) :
    (∀ p ∈ (feed_headers lines (Response.fresh : Response J)).headers,
      ∀ b ∈ p.1, ¬ is_upper b) ∧
    (∀ n v, is_name n = true → is_value v = true →
      hdr_parse (header_line n v) = some (lowercase n, v)) ∧
    (∀ pre post n v, lines = pre ++ [header_line n v] ++ post →
      is_name n = true → is_value v = true →
      (∀ l ∈ post, ∀ x, hdr_parse l = some x → x.1 ≠ lowercase n) →
      ntv_get_str (feed_headers lines (Response.fresh : Response J)).headers (lowercase n)
        = some v) := by
  have hh : (feed_headers lines (Response.fresh : Response J)).headers =
      lines.foldl hdr_store [] := by
    simp only [Response.headers, feed_headers_map]
    rfl
  refine ⟨?_, fun n v hn hv => hdr_parse_header_line hn hv, ?_⟩
  · rw [hh]
    exact foldl_store_keys_lower lines [] (fun p hp => by cases hp)
  · intro pre post n v hl hn hv hpost
    rw [hh, hl, List.foldl_append, List.foldl_append]
    apply foldl_store_keeps _ _ _ _ _ hpost
    show ntv_get_str (hdr_store _ (header_line n v)) (lowercase n) = some v
    unfold hdr_store
    rw [hdr_parse_header_line hn hv]
    exact ntv_get_set_same _ _ _

/-- Three lines, the last one repeating the first name in another case. -/
theorem C5_header_map_last_stored_wins_witness :
    ntv_get_str (feed_headers
        [header_line (cstr "ETag") (cstr "one"), header_line (cstr "Via") (cstr "1.1 p"),
          header_line (cstr "etag") (cstr "two")] (Response.fresh : Response Unit)).headers
      (lowercase (cstr "etag")) = some (cstr "two") :=
  (C5_header_map_last_stored_wins Unit
    [header_line (cstr "ETag") (cstr "one"), header_line (cstr "Via") (cstr "1.1 p"),
      header_line (cstr "etag") (cstr "two")]).2.2
    [header_line (cstr "ETag") (cstr "one"), header_line (cstr "Via") (cstr "1.1 p")] []
    (cstr "etag") (cstr "two") (by decide) (by decide) (by decide)
    (fun _ h => by cases h)

/-- C5 (as stated) fails: after `Foo: bar` the line `Foo:x baz`, which is not of the
form `Name: value`, is stored under `foo` with the value `baz`, so the map does
not hold the value of the most recent line of that form. -/
theorem C5_counterexample_later_line_of_other_form :
    header_line (cstr "Foo") (cstr "bar") = cstr "Foo: bar\r\n" ∧
    is_name (cstr "Foo") = true ∧ is_value (cstr "bar") = true ∧
    (∀ n v, is_name n = true → is_value v = true → header_line n v ≠ cstr "Foo:x baz\r\n") ∧
    ntv_get_str (feed_headers [cstr "Foo: bar\r\n", cstr "Foo:x baz\r\n"]
        (Response.fresh : Response Unit)).headers (lowercase (cstr "Foo"))
      = some (cstr "baz") ∧
    cstr "baz" ≠ cstr "bar" := by
  refine ⟨by decide, by decide, by decide, ?_, by decide, by decide⟩
  intro n v hn hv h
  have hp := hdr_parse_header_line hn hv
  rw [h] at hp
  have hp2 : hdr_parse (cstr "Foo:x baz\r\n") = some (cstr "foo", cstr "baz") := by decide
  rw [hp2] at hp
  have h1 : cstr "foo" = lowercase n := congrArg Prod.fst (Option.some.inj hp)
  have h2 : cstr "baz" = v := congrArg Prod.snd (Option.some.inj hp)
  have hlen : (header_line n v).length = (cstr "Foo:x baz\r\n").length := by rw [h]
  have hn3 : n.length = 3 := by
    have := congrArg List.length h1
    simp only [lowercase, List.length_map] at this
    rw [← this]; rfl
  rw [← h2] at hlen
  simp only [header_line, List.length_append, hn3] at hlen
  revert hlen
  decide

/-! ## The tag loop seen twice -/

set_option maxHeartbeats 4000000 in
theorem apply_tag_effect (a b : Locals) (t : Tag) :
    ((apply_tag a t).err = (apply_tag b t).err ∨
      ((apply_tag a t).err = a.err ∧ (apply_tag b t).err = b.err)) ∧
    ((apply_tag a t).errbuf = (apply_tag b t).errbuf ∨
      ((apply_tag a t).errbuf = a.errbuf ∧ (apply_tag b t).errbuf = b.errbuf)) ∧
    ((apply_tag a t).errsize = (apply_tag b t).errsize ∨
      ((apply_tag a t).errsize = a.errsize ∧ (apply_tag b t).errsize = b.errsize)) ∧
    ((apply_tag a t).flags = (apply_tag b t).flags ∨
      ((apply_tag a t).flags = a.flags ∧ (apply_tag b t).flags = b.flags)) ∧
    ((apply_tag a t).auth_cb = (apply_tag b t).auth_cb ∨
      ((apply_tag a t).auth_cb = a.auth_cb ∧ (apply_tag b t).auth_cb = b.auth_cb)) ∧
    ((apply_tag a t).auth_context = (apply_tag b t).auth_context ∨
      ((apply_tag a t).auth_context = a.auth_context ∧
        (apply_tag b t).auth_context = b.auth_context)) ∧
    ((apply_tag a t).infile = (apply_tag b t).infile ∨
      ((apply_tag a t).infile = a.infile ∧ (apply_tag b t).infile = b.infile)) ∧
    ((apply_tag a t).outfile = (apply_tag b t).outfile ∨
      ((apply_tag a t).outfile = a.outfile ∧ (apply_tag b t).outfile = b.outfile)) ∧
    (∃ c, (apply_tag a t).slist = a.slist ++ c ∧ (apply_tag b t).slist = b.slist ++ c) ∧
    (∃ c, (apply_tag a t).opts = a.opts ++ c ∧ (apply_tag b t).opts = b.opts ++ c) ∧
    (apply_tag a t).memfile = a.memfile ∧
    (apply_tag a t).auth_retry_code = a.auth_retry_code ∧
    (apply_tag a t).www_authenticate_header = a.www_authenticate_header := by
  have hah : ∀ (s1 s2 : List String) (x y : Option String),
      ∃ c, append_header s1 x y = s1 ++ c ∧ append_header s2 x y = s2 ++ c := by
    intro s1 s2 x y
    cases x <;> cases y <;> simp [append_header]
  have nil : ∀ (α : Type) (s1 s2 : List α), ∃ c, s1 = s1 ++ c ∧ s2 = s2 ++ c :=
    fun _ s1 s2 => ⟨[], by simp, by simp⟩
  cases t with
  | ERRBUF e n => simp [apply_tag]
  | ERR e => simp [apply_tag]
  | AUTHCB cb o => simp [apply_tag]
  | FLAGS f => simp [apply_tag]
  | TIMEOUT t => simp [apply_tag, Locals.setopt]
  | HEADER x y =>
    exact ⟨Or.inr ⟨rfl, rfl⟩, Or.inr ⟨rfl, rfl⟩, Or.inr ⟨rfl, rfl⟩, Or.inr ⟨rfl, rfl⟩,
      Or.inr ⟨rfl, rfl⟩, Or.inr ⟨rfl, rfl⟩, Or.inr ⟨rfl, rfl⟩, Or.inr ⟨rfl, rfl⟩,
      hah _ _ _ _, nil _ _ _, rfl, rfl, rfl⟩
  | PUTDATA d n ct =>
    cases d with
    | none => simp [apply_tag]
    | some d =>
      obtain ⟨c, h1, h2⟩ := hah a.slist b.slist (some "Content-Type") ct
      exact ⟨Or.inr ⟨rfl, rfl⟩, Or.inr ⟨rfl, rfl⟩, Or.inr ⟨rfl, rfl⟩, Or.inr ⟨rfl, rfl⟩,
        Or.inr ⟨rfl, rfl⟩, Or.inr ⟨rfl, rfl⟩, Or.inr ⟨rfl, rfl⟩, Or.inr ⟨rfl, rfl⟩,
        ⟨c, h1, h2⟩, ⟨[.READDATA, .SEEKDATA, .PUT, .UPLOAD, .INFILESIZE_LARGE n], by simp [apply_tag, Locals.setopt], by simp [apply_tag, Locals.setopt]⟩,
        rfl, rfl, rfl⟩
  | POSTDATA d n ct =>
    cases d with
    | none => simp [apply_tag]
    | some d =>
      obtain ⟨c, h1, h2⟩ := hah a.slist b.slist (some "Content-Type") ct
      exact ⟨Or.inr ⟨rfl, rfl⟩, Or.inr ⟨rfl, rfl⟩, Or.inr ⟨rfl, rfl⟩, Or.inr ⟨rfl, rfl⟩,
        Or.inr ⟨rfl, rfl⟩, Or.inr ⟨rfl, rfl⟩, Or.inr ⟨rfl, rfl⟩, Or.inr ⟨rfl, rfl⟩,
        ⟨c, h1, h2⟩, ⟨[.READDATA, .SEEKDATA, .POST, .POSTFIELDSIZE_LARGE n], by simp [apply_tag, Locals.setopt], by simp [apply_tag, Locals.setopt]⟩,
        rfl, rfl, rfl⟩
  | POSTFIELDS d n => simp [apply_tag, Locals.setopt]
  | POSTARGS s =>
    cases s with
    | none => simp [apply_tag]
    | some s => simp [apply_tag, Locals.setopt]
  | POSTJSON j => simp [apply_tag, Locals.setopt, append_header]
  | POSTFILE f ct =>
    cases f with
    | none => simp [apply_tag]
    | some f =>
      obtain ⟨c, h1, h2⟩ := hah a.slist b.slist (some "Content-Type") ct
      exact ⟨Or.inr ⟨rfl, rfl⟩, Or.inr ⟨rfl, rfl⟩, Or.inr ⟨rfl, rfl⟩, Or.inr ⟨rfl, rfl⟩,
        Or.inr ⟨rfl, rfl⟩, Or.inr ⟨rfl, rfl⟩, Or.inl rfl, Or.inr ⟨rfl, rfl⟩,
        ⟨c ++ ["Transfer-Encoding: chunked"],
          by
            show append_header a.slist (some "Content-Type") ct ++ _ = _
            rw [h1, List.append_assoc],
          by
            show append_header b.slist (some "Content-Type") ct ++ _ = _
            rw [h2, List.append_assoc]⟩,
        ⟨[.POST, .READDATA, .SEEKDATA], by simp [apply_tag, Locals.setopt], by simp [apply_tag, Locals.setopt]⟩,
        rfl, rfl, rfl⟩
  | VERB v =>
    cases v with
    | none => simp [apply_tag]
    | some v => simp [apply_tag, Locals.setopt]
  | USERNPASS u p => simp [apply_tag, Locals.setopt]
  | OUTPUTFILE f => simp [apply_tag]
  | CURL_HANDLEPTR => simp [apply_tag]

theorem tags_rel_refl (a0 b0 : Locals) : tags_rel a0 b0 a0 b0 := by
  refine ⟨Or.inr ⟨rfl, rfl⟩, Or.inr ⟨rfl, rfl⟩, Or.inr ⟨rfl, rfl⟩, Or.inr ⟨rfl, rfl⟩,
    Or.inr ⟨rfl, rfl⟩, Or.inr ⟨rfl, rfl⟩, Or.inr ⟨rfl, rfl⟩, Or.inr ⟨rfl, rfl⟩,
    ⟨[], by simp, by simp⟩, ⟨[], by simp, by simp⟩, rfl, rfl, rfl, rfl, rfl, rfl⟩

theorem or_step {α : Type} {x y x0 y0 x1 y1 : α} (h : x = y ∨ (x = x0 ∧ y = y0))
    (e : x1 = y1 ∨ (x1 = x ∧ y1 = y)) : x1 = y1 ∨ (x1 = x0 ∧ y1 = y0) := by
  rcases e with e | ⟨e1, e2⟩
  · exact Or.inl e
  · rcases h with h | ⟨h1, h2⟩
    · exact Or.inl (by rw [e1, e2, h])
    · exact Or.inr ⟨by rw [e1, h1], by rw [e2, h2]⟩

theorem tags_rel_step (a0 b0 a b : Locals) (t : Tag) (h : tags_rel a0 b0 a b) :
    tags_rel a0 b0 (apply_tag a t) (apply_tag b t) := by
  obtain ⟨h1, h2, h3, h4, h5, h6, h7, h8, ⟨c, hc1, hc2⟩, ⟨d, hd1, hd2⟩, h9, h10, h11, h12,
    h13, h14⟩ := h
  obtain ⟨e1, e2, e3, e4, e5, e6, e7, e8, ⟨c1, hs1, hs2⟩, ⟨d1, ho1, ho2⟩, m1, m2, m3⟩ :=
    apply_tag_effect a b t
  obtain ⟨-, -, -, -, -, -, -, -, -, -, n1, n2, n3⟩ := apply_tag_effect b a t
  exact ⟨or_step h1 e1, or_step h2 e2, or_step h3 e3, or_step h4 e4, or_step h5 e5,
    or_step h6 e6, or_step h7 e7, or_step h8 e8,
    ⟨c ++ c1, by rw [hs1, hc1, List.append_assoc], by rw [hs2, hc2, List.append_assoc]⟩,
    ⟨d ++ d1, by rw [ho1, hd1, List.append_assoc], by rw [ho2, hd2, List.append_assoc]⟩,
    by rw [m1, h9], by rw [n1, h10], by rw [m2, h11], by rw [n2, h12], by rw [m3, h13],
    by rw [n3, h14]⟩

theorem tags_rel_foldl (tags : List Tag) (a0 b0 : Locals) :
    tags_rel a0 b0 (tags.foldl apply_tag a0) (tags.foldl apply_tag b0) := by
  induction tags using List.reverseRecOn with
  | nil => exact tags_rel_refl a0 b0
  | append_singleton ts t ih =>
    rw [List.foldl_append, List.foldl_append]
    exact tags_rel_step a0 b0 _ _ t ih

/-! ## The second pass over the tags -/

theorem configure_update (url : String) (l : Locals) (m : Bool) (c : Nat) (h : Option Bytes) :
    configure url { l with memfile := m, auth_retry_code := c, www_authenticate_header := h } =
      { configure url l with memfile := (if l.outfile = none then true else m),
                             auth_retry_code := c, www_authenticate_header := h } := rfl

theorem locals_eq_update (a b : Locals) (h1 : a.err = b.err) (h2 : a.errbuf = b.errbuf)
    (h3 : a.errsize = b.errsize) (h4 : a.flags = b.flags) (h5 : a.auth_cb = b.auth_cb)
    (h6 : a.auth_context = b.auth_context) (h7 : a.infile = b.infile)
    (h8 : a.outfile = b.outfile) (h9 : a.slist = b.slist) (h10 : a.opts = b.opts) :
    b = { a with memfile := b.memfile, auth_retry_code := b.auth_retry_code,
                 www_authenticate_header := b.www_authenticate_header } := by
  cases a; cases b
  simp only [Locals.mk.injEq] at *
  simp [*]

/-- The tag loop of the retried attempt leaves the locals as the first one did,
up to the retry code and the challenge. -/
theorem second_build (url : String) (tags : List Tag) (l1 : Locals)
    (h1 : l1.err = (build url tags Locals.init).err)
    (h2 : l1.errbuf = (build url tags Locals.init).errbuf)
    (h3 : l1.errsize = (build url tags Locals.init).errsize)
    (h4 : l1.flags = (build url tags Locals.init).flags)
    (h5 : l1.auth_cb = (build url tags Locals.init).auth_cb)
    (h6 : l1.auth_context = (build url tags Locals.init).auth_context)
    (h7 : l1.infile = (build url tags Locals.init).infile)
    (ho : l1.outfile = none) (hs : l1.slist = []) (hop : l1.opts = [])
    (hm : l1.memfile = (build url tags Locals.init).memfile) :
    build url tags l1 =
      { build url tags Locals.init with
        auth_retry_code := l1.auth_retry_code,
        www_authenticate_header := l1.www_authenticate_header } := by
  obtain ⟨r1, r2, r3, r4, r5, r6, r7, r8, ⟨c, hc1, hc2⟩, ⟨d, hd1, hd2⟩, m1, m2, c1, c2, w1, w2⟩ :=
    tags_rel_foldl tags Locals.init l1
  have fix : ∀ {α : Type} {x y x0 y0 : α}, (x = y ∨ (x = x0 ∧ y = y0)) → y0 = x → x = y := by
    intro α x y x0 y0 h e
    rcases h with h | ⟨_, h2⟩
    · exact h
    · rw [h2, e]
  have e1 := fix r1 h1
  have e2 := fix r2 h2
  have e3 := fix r3 h3
  have e4 := fix r4 h4
  have e5 := fix r5 h5
  have e6 := fix r6 h6
  have e7 := fix r7 h7
  have e8 : (tags.foldl apply_tag Locals.init).outfile = (tags.foldl apply_tag l1).outfile := by
    rcases r8 with h | ⟨ha, hb⟩
    · exact h
    · rw [ha, hb, ho]; rfl
  have e9 : (tags.foldl apply_tag Locals.init).slist = (tags.foldl apply_tag l1).slist := by
    rw [hc1, hc2, hs]; rfl
  have e10 : (tags.foldl apply_tag Locals.init).opts = (tags.foldl apply_tag l1).opts := by
    rw [hd1, hd2, hop]; rfl
  have hb := locals_eq_update _ _ e1 e2 e3 e4 e5 e6 e7 e8 e9 e10
  unfold build
  rw [hb, configure_update]
  have hm1 : (tags.foldl apply_tag Locals.init).memfile = false := m1
  have hm2 : (configure url (tags.foldl apply_tag Locals.init)).memfile =
      (if (tags.foldl apply_tag Locals.init).outfile = none then true else false) := by
    show (if _ then true else (tags.foldl apply_tag Locals.init).memfile) = _
    rw [hm1]
  have hm3 : (if (tags.foldl apply_tag Locals.init).outfile = none then true
      else (tags.foldl apply_tag l1).memfile) =
      (configure url (tags.foldl apply_tag Locals.init)).memfile := by
    rw [hm2, m2, hm]
    show _ = (if _ then true else false)
    unfold build
    rw [hm2]
    split_ifs <;> rfl
  rw [hm3, c2, w2]

/-! ## The retry loop -/

theorem authorize_locals (l : Locals) (w : World) :
    (authorize l w).1 =
      { l with slist := (authorize l w).1.slist, opts := (authorize l w).1.opts } := by
  rcases l with ⟨e, eb, es, fl, sl, www, cb, op, out, inf, mf, code, opts⟩
  unfold authorize
  cases cb with
  | none =>
    simp only
    split_ifs <;> rfl
  | some cb =>
    simp only
    cases cb op code www with
    | none =>
      simp only
      split_ifs <;> rfl
    | some auth =>
      simp only
      split_ifs <;> rfl

theorem transfer_locals {J : Type} (reply : Reply) (l : Locals) (hcr : Response J) (w : World) :
    (transfer reply l hcr w).1 = { l with slist := [] } := rfl

theorem attempt_locals {J : Type} (x : Ext J) (url : String) (tags : List Tag) (l : Locals)
    (hcr : Response J) (w : World) :
    (attempt x url tags l hcr w).2.1 =
      { build url tags l with
        slist := [], opts := (authorize (build url tags l) w).1.opts } := by
  show (transfer _ (authorize (build url tags l) w).1 _ _).1 = _
  rw [transfer_locals, authorize_locals]

theorem build_init_code (url : String) (tags : List Tag) :
    (build url tags Locals.init).auth_retry_code = 0 := by
  obtain ⟨-, -, -, -, -, -, -, -, -, -, -, -, c1, -, -, -⟩ :=
    tags_rel_foldl tags Locals.init Locals.init
  exact c1

theorem second_locals {J : Type} (x : Ext J) (url : String) (tags : List Tag) (w : World) :
    build url tags (retry_locals (first_attempt x url tags w).2.1
        (first_attempt x url tags w).2.2.1 : Locals) =
      { build url tags Locals.init with
        auth_retry_code := 401,
        www_authenticate_header :=
          (first_attempt x url tags w).2.2.1.hcr_headers.bind
            (fun m => ntv_get_str m (cstr "www-authenticate")) } := by
  have h := attempt_locals x url tags Locals.init (Response.zero : Response J) w.acquired
  have e := second_build url tags (retry_locals (first_attempt x url tags w).2.1
    (first_attempt x url tags w).2.2.1)
  unfold first_attempt at e ⊢
  rw [h] at e ⊢
  exact e rfl rfl rfl rfl rfl rfl rfl rfl rfl rfl rfl

/-- With fuel for two rounds the call returns, and what it returns is `finish`
applied to its terminal attempt. -/
theorem request_returns {J : Type} (x : Ext J) (url : String) (tags : List Tag) (w : World)
    (fuel : Nat) (hfuel : 2 ≤ fuel) :
    http_client_request x fuel url tags w =
      some (finish x (get_handle w.pool).1 (terminal_attempt x url tags w).1
        (terminal_attempt x url tags w).2.1 (terminal_attempt x url tags w).2.2.1
        (terminal_attempt x url tags w).2.2.2) := by
  obtain ⟨f, rfl⟩ : ∃ f, fuel = f + 1 + 1 := ⟨fuel - 2, by omega⟩
  have h1 := attempt_locals x url tags Locals.init (Response.zero : Response J) w.acquired
  have hcb : (first_attempt x url tags w).2.1.auth_cb = (call_locals tags).auth_cb := by
    unfold first_attempt; rw [h1]; rfl
  have hcode : (first_attempt x url tags w).2.1.auth_retry_code = 0 := by
    unfold first_attempt; rw [h1]; exact build_init_code url tags
  show request_loop x url tags _ (f + 1 + 1) Locals.init Response.zero w.acquired = _
  rw [request_loop]
  show (if (first_attempt x url tags w).1.response_code = 401 ∧
      (first_attempt x url tags w).2.1.auth_cb.isSome = true ∧
      (first_attempt x url tags w).2.1.auth_retry_code = 0 then _ else _) = _
  by_cases hr : retries x url tags w
  · have hr' := hr
    unfold retries at hr'
    rw [if_pos ⟨hr'.1, by rw [hcb]; exact hr'.2, hcode⟩]
    rw [request_loop]
    have h2 := attempt_locals x url tags
      (retry_locals (first_attempt x url tags w).2.1 (first_attempt x url tags w).2.2.1)
      (http_client_response_free (first_attempt x url tags w).2.2.1)
      (first_attempt x url tags w).2.2.2
    have hcode2 : (second_attempt x url tags w).2.1.auth_retry_code = 401 := by
      unfold second_attempt
      simp only
      rw [h2, second_locals]
    show (if (second_attempt x url tags w).1.response_code = 401 ∧
      (second_attempt x url tags w).2.1.auth_cb.isSome = true ∧
      (second_attempt x url tags w).2.1.auth_retry_code = 0 then _ else _) = _
    rw [if_neg (by rw [hcode2]; simp)]
    unfold terminal_attempt
    rw [if_pos hr]
    rfl
  · have hn : ¬ ((first_attempt x url tags w).1.response_code = 401 ∧
        (first_attempt x url tags w).2.1.auth_cb.isSome = true ∧
        (first_attempt x url tags w).2.1.auth_retry_code = 0) := by
      intro h
      exact hr ⟨h.1, by rw [← hcb]; exact h.2.1⟩
    rw [if_neg hn]
    unfold terminal_attempt
    rw [if_neg hr]
    rfl

/-! ## The terminal attempt -/

theorem call_locals_memfile (tags : List Tag) : (call_locals tags).memfile = false := by
  obtain ⟨-, -, -, -, -, -, -, -, -, -, m1, -, -, -, -, -⟩ :=
    tags_rel_foldl tags Locals.init Locals.init
  exact m1

theorem first_setup {J : Type} (x : Ext J) (url : String) (tags : List Tag) (w : World) :
    same_setup (first_attempt x url tags w).2.1 (build url tags Locals.init) := by
  unfold first_attempt
  rw [attempt_locals]
  exact ⟨rfl, rfl, rfl, rfl, rfl, rfl, rfl, rfl, rfl⟩

theorem second_setup {J : Type} (x : Ext J) (url : String) (tags : List Tag) (w : World) :
    same_setup (second_attempt x url tags w).2.1 (build url tags Locals.init) := by
  unfold second_attempt
  simp only
  rw [attempt_locals, second_locals]
  exact ⟨rfl, rfl, rfl, rfl, rfl, rfl, rfl, rfl, rfl⟩

theorem terminal_setup {J : Type} (x : Ext J) (url : String) (tags : List Tag) (w : World) :
    same_setup (terminal_attempt x url tags w).2.1 (build url tags Locals.init) := by
  unfold terminal_attempt
  split_ifs
  · exact second_setup x url tags w
  · exact first_setup x url tags w

theorem build_memfile (url : String) (tags : List Tag) :
    (build url tags Locals.init).memfile = decide ((call_locals tags).outfile = none) := by
  show (if (call_locals tags).outfile = none then true else (call_locals tags).memfile) = _
  rw [call_locals_memfile]
  by_cases h : (call_locals tags).outfile = none <;> simp [h]

theorem finish_status {J : Type} (x : Ext J) (curl : Nat) (reply : Reply) (l : Locals)
    (hcr : Response J) (w : World) :
    (finish x curl reply l hcr w).2.1.hcr_http_status = reply.response_code ∧
    (finish x curl reply l hcr w).2.1.hcr_body = hcr.hcr_body ∧
    (finish x curl reply l hcr w).2.1.hcr_bodysize = hcr.hcr_bodysize ∧
    (finish x curl reply l hcr w).2.1.hcr_headers = hcr.hcr_headers := by
  unfold finish
  simp only
  cases x.ntv_json_deserialize ((hcr.hcr_body.getD []).takeWhile (fun b => b != 0)) <;>
    simp only <;> split_ifs <;> exact ⟨rfl, rfl, rfl, rfl⟩

theorem json_fails_finish {J : Type} (x : Ext J) (curl : Nat) (reply : Reply) (l : Locals)
    (hcr : Response J) (w : World) :
    json_fails x (finish x curl reply l hcr w).2.1 = json_fails x hcr := by
  unfold json_fails
  rw [(finish_status x curl reply l hcr w).2.1]

theorem finish_transport_failure {J : Type} (x : Ext J) (curl : Nat) (reply : Reply)
    (l : Locals) (hcr : Response J) (w : World) (h : reply.result ≠ 0) :
    (finish x curl reply l hcr w).1 = 1 ∧
    (finish x curl reply l hcr w).2.1.hcr_local_error = true ∧
    (finish x curl reply l hcr w).2.1.hcr_transport_status =
      some (x.curl_easy_strerror reply.result) := by
  unfold finish
  simp only [h, ne_eq, not_false_eq_true, if_true, and_self]

theorem finish_http_error {J : Type} (x : Ext J) (curl : Nat) (reply : Reply)
    (l : Locals) (hcr : Response J) (w : World) (h : reply.result = 0)
    (hc : 400 ≤ reply.response_code) (hf : l.flags.no_fail_on_error = false) :
    (finish x curl reply l hcr w).1 = 1 ∧
    (finish x curl reply l hcr w).2.1.hcr_transport_status =
      some ("HTTP Error " ++ toString reply.response_code) ∧
    (finish x curl reply l hcr w).2.1.hcr_errbuf =
      "HTTP Error " ++ toString reply.response_code ∧
    (finish x curl reply l hcr w).2.1.hcr_local_error = hcr.hcr_local_error := by
  unfold finish
  simp only [h, hc, hf, ne_eq, not_true_eq_false, if_false, Bool.not_false, and_self, if_true]

theorem finish_other {J : Type} (x : Ext J) (curl : Nat) (reply : Reply)
    (l : Locals) (hcr : Response J) (w : World) (h : reply.result = 0)
    (hc : ¬ (400 ≤ reply.response_code ∧ l.flags.no_fail_on_error = false)) :
    ((finish x curl reply l hcr w).1 = 1 ↔
      (l.memfile = true ∧ l.flags.decode_body_as_json = true ∧ json_fails x hcr = true)) ∧
    ((finish x curl reply l hcr w).1 = 1 ∨ (finish x curl reply l hcr w).1 = 0) ∧
    ((finish x curl reply l hcr w).1 = 1 →
      (finish x curl reply l hcr w).2.1.hcr_malformed_json = true) := by
  have hc' : ¬ ((!l.flags.no_fail_on_error) = true ∧ 400 ≤ reply.response_code) := by
    intro h1
    apply hc
    refine ⟨h1.2, ?_⟩
    simpa using h1.1
  unfold finish json_fails
  simp only [h, hc', ne_eq, not_true_eq_false, if_false]
  by_cases hm : l.memfile = true
  · by_cases hj : l.flags.decode_body_as_json = true
    · simp only [hm, hj, if_true]
      cases x.ntv_json_deserialize ((hcr.hcr_body.getD []).takeWhile (fun b => b != 0)) with
      | ok j => simp
      | error e => simp
    · simp [hm, hj]
  · simp [hm]

/-- C1: with fuel for two rounds `http_client_request` returns; the status of the
response is the one reported by the terminal attempt; the return value is 1
exactly when (a) the transport reported a failure, or (b) it did not, the
status is at least 400 and no-fail-on-http-error is off, or (c) neither holds,
the in-memory sink is used, decode-body-as-json is on and the body does not
parse, and it is 0 otherwise; in case (a) local-error is set and the
transport status is the transport's error string, in case (b) the transport
status is `HTTP Error N`, in case (c) malformed-json is set. -/
theorem C1_return_value_classification {J : Type} (x : Ext J) (url : String)
    (tags : List Tag) (w : World) (fuel : Nat) (hfuel : 2 ≤ fuel) :
    ∃ r, http_client_request x fuel url tags w = some r ∧
      r.2.1.hcr_http_status = (terminal_attempt x url tags w).1.response_code ∧
      (r.1 = 1 ∨ r.1 = 0) ∧
      (r.1 = 1 ↔
        ((terminal_attempt x url tags w).1.result ≠ 0 ∨
         ((terminal_attempt x url tags w).1.result = 0 ∧
            400 ≤ (terminal_attempt x url tags w).1.response_code ∧
            (call_locals tags).flags.no_fail_on_error = false) ∨
         ((terminal_attempt x url tags w).1.result = 0 ∧
            ¬ (400 ≤ (terminal_attempt x url tags w).1.response_code ∧
              (call_locals tags).flags.no_fail_on_error = false) ∧
            (call_locals tags).outfile = none ∧
            (call_locals tags).flags.decode_body_as_json = true ∧
            json_fails x r.2.1 = true))) ∧
      ((terminal_attempt x url tags w).1.result ≠ 0 →
        r.2.1.hcr_local_error = true ∧
        r.2.1.hcr_transport_status =
          some (x.curl_easy_strerror (terminal_attempt x url tags w).1.result)) ∧
      ((terminal_attempt x url tags w).1.result = 0 →
        400 ≤ (terminal_attempt x url tags w).1.response_code →
        (call_locals tags).flags.no_fail_on_error = false →
        r.2.1.hcr_transport_status =
          some ("HTTP Error " ++ toString (terminal_attempt x url tags w).1.response_code)) ∧
      ((terminal_attempt x url tags w).1.result = 0 →
        ¬ (400 ≤ (terminal_attempt x url tags w).1.response_code ∧
          (call_locals tags).flags.no_fail_on_error = false) →
        (call_locals tags).outfile = none →
        (call_locals tags).flags.decode_body_as_json = true →
        json_fails x r.2.1 = true → r.2.1.hcr_malformed_json = true) := by
  refine ⟨_, request_returns x url tags w fuel hfuel, ?_⟩
  obtain ⟨-, -, -, hfl, -, -, -, -, hmf⟩ := terminal_setup x url tags w
  rw [build_memfile] at hmf
  have hfl' : (terminal_attempt x url tags w).2.1.flags = (call_locals tags).flags := hfl
  generalize terminal_attempt x url tags w = ta at *
  obtain ⟨reply, l, hcr, w0⟩ := ta
  simp only at hfl' hmf ⊢
  have hst := finish_status x (get_handle w.pool).1 reply l hcr w0
  have hjs := json_fails_finish x (get_handle w.pool).1 reply l hcr w0
  rw [hjs]
  have hmem : l.memfile = true ↔ (call_locals tags).outfile = none := by
    rw [hmf]; simp
  refine ⟨hst.1, ?_⟩
  by_cases hres : reply.result = 0
  · by_cases hhttp : 400 ≤ reply.response_code ∧ (call_locals tags).flags.no_fail_on_error = false
    · have hb := finish_http_error x (get_handle w.pool).1 reply l hcr w0 hres hhttp.1
        (by rw [hfl']; exact hhttp.2)
      refine ⟨Or.inl hb.1, ⟨fun _ => Or.inr (Or.inl ⟨hres, hhttp⟩), fun _ => hb.1⟩,
        fun h => absurd hres h, fun _ _ _ => hb.2.1, fun _ h => absurd hhttp h⟩
    · have hc := finish_other x (get_handle w.pool).1 reply l hcr w0 hres
        (by rw [hfl']; exact hhttp)
      rw [hfl', hmem] at hc
      refine ⟨hc.2.1, ⟨fun h => Or.inr (Or.inr ⟨hres, hhttp, hc.1.mp h⟩), ?_⟩,
        fun h => absurd hres h, fun _ h1 h2 => absurd ⟨h1, h2⟩ hhttp,
        fun _ _ h1 h2 h3 => hc.2.2 (hc.1.mpr ⟨h1, h2, h3⟩)⟩
      rintro (h | h | h)
      · exact absurd hres h
      · exact absurd h.2 hhttp
      · exact hc.1.mpr h.2.2
  · have ha := finish_transport_failure x (get_handle w.pool).1 reply l hcr w0 hres
    refine ⟨Or.inl ha.1, ⟨fun _ => Or.inl hres, fun _ => ha.1⟩, fun _ => ha.2,
      fun h => absurd h hres, fun h => absurd h hres⟩

/-- A call without callback against a transport that answers 401. -/
theorem C1_return_value_classification_witness :
    ∃ r, http_client_request (Ext.answers reply_401 reply_401) 2 "http://a" [] World.init
        = some r ∧
      r.2.1.hcr_http_status = 401 ∧ r.1 = 1 ∧
      r.2.1.hcr_transport_status = some "HTTP Error 401" :=
  (C1_return_value_classification (Ext.answers reply_401 reply_401) "http://a" []
    World.init 2 (by decide)).imp fun _ h =>
      ⟨h.1, h.2.1.trans (by decide), h.2.2.2.1.mpr (Or.inr (Or.inl (by decide))),
        (h.2.2.2.2.2.1 (by decide) (by decide) (by decide)).trans (by decide)⟩

/-! ## Number of attempts -/

theorem finish_world {J : Type} (x : Ext J) (curl : Nat) (reply : Reply) (l : Locals)
    (hcr : Response J) (w : World) :
    (finish x curl reply l hcr w).2.2.performed = w.performed ∧
    (finish x curl reply l hcr w).2.2.auth_calls = w.auth_calls ∧
    (finish x curl reply l hcr w).2.2.written = w.written ∧
    (finish x curl reply l hcr w).2.2.pool = put_handle w.pool curl := by
  unfold finish
  simp only
  cases x.ntv_json_deserialize ((hcr.hcr_body.getD []).takeWhile (fun b => b != 0)) <;>
    simp only [err_push, snprintf_errbuf] <;> split_ifs <;> exact ⟨rfl, rfl, rfl, rfl⟩

theorem authorize_world (l : Locals) (w : World) :
    (authorize l w).2.performed = w.performed ∧ (authorize l w).2.errbuf = w.errbuf ∧
    (authorize l w).2.pool = w.pool ∧ (authorize l w).2.written = w.written ∧
    (authorize l w).2.errs = w.errs := by
  unfold authorize
  cases l.auth_cb with
  | none => simp only; split_ifs <;> exact ⟨rfl, rfl, rfl, rfl, rfl⟩
  | some cb =>
    simp only
    cases cb l.auth_context l.auth_retry_code l.www_authenticate_header <;>
      simp only <;> split_ifs <;> exact ⟨rfl, rfl, rfl, rfl, rfl⟩

theorem transfer_world {J : Type} (reply : Reply) (l : Locals) (hcr : Response J) (w : World) :
    (transfer reply l hcr w).2.2.performed = w.performed ++ [l.opts] ∧
    (transfer reply l hcr w).2.2.auth_calls = w.auth_calls ∧
    (transfer reply l hcr w).2.2.errbuf = w.errbuf ∧
    (transfer reply l hcr w).2.2.pool = w.pool := by
  unfold transfer
  simp only
  rcases l.outfile with _ | _ | _ <;> simp only <;> split_ifs <;> exact ⟨rfl, rfl, rfl, rfl⟩

theorem attempt_world {J : Type} (x : Ext J) (url : String) (tags : List Tag) (l : Locals)
    (hcr : Response J) (w : World) :
    (attempt x url tags l hcr w).2.2.2.performed =
      w.performed ++ [(authorize (build url tags l) w).1.opts] ∧
    (attempt x url tags l hcr w).2.2.2.auth_calls =
      (authorize (build url tags l) w).2.auth_calls ∧
    (attempt x url tags l hcr w).2.2.2.errbuf = w.errbuf ∧
    (attempt x url tags l hcr w).2.2.2.pool = w.pool := by
  have ht := transfer_world (x.curl_easy_perform (authorize (build url tags l) w).2.performed.length
    (authorize (build url tags l) w).1.opts) (authorize (build url tags l) w).1
    { hcr with hcr_headers := some [] } (authorize (build url tags l) w).2
  have ha := authorize_world (build url tags l) w
  refine ⟨?_, ht.2.1, ?_, ?_⟩
  · show (transfer _ _ _ _).2.2.performed = _
    rw [ht.1, ha.1]
  · show (transfer _ _ _ _).2.2.errbuf = _
    rw [ht.2.2.1, ha.2.1]
  · show (transfer _ _ _ _).2.2.pool = _
    rw [ht.2.2.2, ha.2.2.1]

theorem terminal_performed {J : Type} (x : Ext J) (url : String) (tags : List Tag) (w : World) :
    (terminal_attempt x url tags w).2.2.2.performed.length =
      w.performed.length + (if retries x url tags w then 2 else 1) := by
  unfold terminal_attempt
  split_ifs
  · unfold second_attempt
    simp only
    rw [(attempt_world _ _ _ _ _ _).1]
    unfold first_attempt
    rw [(attempt_world _ _ _ _ _ _).1]
    simp [World.acquired]
  · unfold first_attempt
    rw [(attempt_world _ _ _ _ _ _).1]
    simp [World.acquired]

/-- C2: with fuel for two rounds the call returns, and it has performed exactly
two transfers when the first one reports 401 and a callback was supplied and
exactly one otherwise, so never more than two; when the second transfer
reports 401 as well, the response carries status 401, and unless
no-fail-on-http-error is set the return value is 1, with the transport status
`HTTP Error 401` if the transport itself did not fail. -/
theorem C2_at_most_two_attempts {J : Type} (x : Ext J) (url : String) (tags : List Tag)
    (w : World) (fuel : Nat) (hfuel : 2 ≤ fuel) :
    ∃ r, http_client_request x fuel url tags w = some r ∧
      r.2.2.performed.length =
        w.performed.length + (if retries x url tags w then 2 else 1) ∧
      r.2.2.performed.length ≤ w.performed.length + 2 ∧
      (retries x url tags w → (second_attempt x url tags w).1.response_code = 401 →
        r.2.2.performed.length = w.performed.length + 2 ∧
        r.2.1.hcr_http_status = 401 ∧
        ((call_locals tags).flags.no_fail_on_error = false →
          r.1 = 1 ∧
          ((second_attempt x url tags w).1.result = 0 →
            r.2.1.hcr_transport_status = some "HTTP Error 401"))) := by
  obtain ⟨r, hr, hst, -, hiff, -, hb, -⟩ :=
    C1_return_value_classification x url tags w fuel hfuel
  have hr2 := request_returns x url tags w fuel hfuel
  have hlen : r.2.2.performed.length =
      w.performed.length + (if retries x url tags w then 2 else 1) := by
    rw [hr] at hr2
    rw [Option.some.inj hr2, (finish_world _ _ _ _ _ _).1]
    exact terminal_performed x url tags w
  refine ⟨r, hr, hlen, ?_, ?_⟩
  · rw [hlen]
    split_ifs <;> omega
  · intro hret h401
    have hta : terminal_attempt x url tags w = second_attempt x url tags w := by
      unfold terminal_attempt
      rw [if_pos hret]
    rw [hta] at hst hiff hb
    refine ⟨by rw [hlen, if_pos hret], by rw [hst, h401], fun hnf => ⟨?_, fun hres => ?_⟩⟩
    · apply hiff.mpr
      by_cases hres : (second_attempt x url tags w).1.result = 0
      · exact Or.inr (Or.inl ⟨hres, by rw [h401]; decide, hnf⟩)
      · exact Or.inl hres
    · have := hb hres (by rw [h401]; decide) hnf
      rw [this, h401]
      rfl

/-- Two consecutive 401 answers with a callback: two transfers, return value 1. -/
theorem C2_at_most_two_attempts_witness :
    ∃ r, http_client_request (Ext.answers reply_401 reply_401) 2 "http://a"
        [Tag.AUTHCB (some cb_always) 7] World.init = some r ∧
      r.2.2.performed.length = 2 ∧ r.2.1.hcr_http_status = 401 ∧ r.1 = 1 :=
  (C2_at_most_two_attempts (Ext.answers reply_401 reply_401) "http://a"
    [Tag.AUTHCB (some cb_always) 7] World.init 2 (by decide)).imp fun _ h =>
      ⟨h.1, (h.2.2.2 (by decide) (by decide)).1,
        (h.2.2.2 (by decide) (by decide)).2.1,
        ((h.2.2.2 (by decide) (by decide)).2.2 (by decide)).1⟩

/-! ## The authentication callback -/

theorem request_headers_append (o c : List CurlOpt)
    (hc : ∀ p ∈ c, ∀ s, p ≠ CurlOpt.HTTPHEADER s) :
    request_headers (o ++ c) = request_headers o := by
  unfold request_headers
  rw [List.foldl_append]
  generalize List.foldl _ [] o = acc
  induction c generalizing acc with
  | nil => rfl
  | cons p ps ih =>
    have hp := hc p (List.mem_cons_self _ _)
    have hps : ∀ q ∈ ps, ∀ s, q ≠ CurlOpt.HTTPHEADER s :=
      fun q hq => hc q (List.mem_cons_of_mem _ hq)
    rw [List.foldl_cons]
    have : header_step acc p = acc := by
      cases p <;> first | rfl | exact absurd rfl (hp _)
    rw [this]
    exact ih hps acc

set_option maxHeartbeats 4000000 in
theorem apply_tag_request_headers (l : Locals) (t : Tag) :
    request_headers (apply_tag l t).opts = request_headers l.opts := by
  have h1 : ∀ c : List CurlOpt, (∀ p ∈ c, ∀ s, p ≠ CurlOpt.HTTPHEADER s) →
      ∀ l1 : Locals, l1.opts = l.opts ++ c → request_headers l1.opts = request_headers l.opts :=
    fun c hc l1 e => by rw [e]; exact request_headers_append _ _ hc
  cases t with
  | ERRBUF e n => rfl
  | ERR e => rfl
  | AUTHCB cb o => rfl
  | FLAGS f => rfl
  | TIMEOUT t => exact h1 [.TIMEOUT t] (by simp) _ rfl
  | HEADER x y => rfl
  | PUTDATA d n ct =>
    cases d with
    | none => rfl
    | some d =>
      exact h1 [.READDATA, .SEEKDATA, .PUT, .UPLOAD, .INFILESIZE_LARGE n] (by simp) _
        (by simp [apply_tag, Locals.setopt])
  | POSTDATA d n ct =>
    cases d with
    | none => rfl
    | some d =>
      exact h1 [.READDATA, .SEEKDATA, .POST, .POSTFIELDSIZE_LARGE n] (by simp) _
        (by simp [apply_tag, Locals.setopt])
  | POSTFIELDS d n =>
    exact h1 [.POST, .POSTFIELDS d, .POSTFIELDSIZE n] (by simp) _
      (by simp [apply_tag, Locals.setopt])
  | POSTARGS s =>
    cases s with
    | none => rfl
    | some s =>
      exact h1 [.POST, .COPYPOSTFIELDS s] (by simp) _ (by simp [apply_tag, Locals.setopt])
  | POSTJSON j =>
    exact h1 [.POST, .COPYPOSTFIELDS j] (by simp) _ (by simp [apply_tag, Locals.setopt])
  | POSTFILE f ct =>
    cases f with
    | none => rfl
    | some f =>
      exact h1 [.POST, .READDATA, .SEEKDATA] (by simp) _ (by simp [apply_tag, Locals.setopt])
  | VERB v =>
    cases v with
    | none => rfl
    | some v => exact h1 [.CUSTOMREQUEST v] (by simp) _ (by simp [apply_tag, Locals.setopt])
  | USERNPASS u p =>
    exact h1 [.USERNAME u, .PASSWORD p] (by simp) _ (by simp [apply_tag, Locals.setopt])
  | OUTPUTFILE f => rfl
  | CURL_HANDLEPTR => rfl

theorem foldl_request_headers (tags : List Tag) (l : Locals) :
    request_headers (tags.foldl apply_tag l).opts = request_headers l.opts := by
  induction tags generalizing l with
  | nil => rfl
  | cons t ts ih =>
    rw [List.foldl_cons, ih, apply_tag_request_headers]

theorem build_request_headers (url : String) (tags : List Tag) (l : Locals) :
    request_headers (build url tags l).opts = request_headers l.opts := by
  have e : (build url tags l).opts = (tags.foldl apply_tag l).opts ++
      ([CurlOpt.PROTOCOLS, CurlOpt.URL url] ++
      (if (tags.foldl apply_tag l).flags.no_follow_redirect then []
        else [CurlOpt.FOLLOWLOCATION]) ++
      [CurlOpt.WRITEDATA ((tags.foldl apply_tag l).outfile.getD Outfile.mem), CurlOpt.USERAGENT,
        CurlOpt.HEADERFUNCTION, CurlOpt.HEADERDATA] ++
      (if (tags.foldl apply_tag l).flags.verbose then [CurlOpt.VERBOSE] else []) ++
      (if (tags.foldl apply_tag l).flags.accept_gzip then [CurlOpt.ACCEPT_ENCODING "gzip"]
        else []) ++
      [CurlOpt.OPENSOCKETFUNCTION, CurlOpt.OPENSOCKETDATA]) := by
    show _ ++ _ ++ _ ++ _ ++ _ ++ _ ++ _ = _
    simp only [List.append_assoc]
  rw [e, request_headers_append, foldl_request_headers]
  intro p hp s
  simp only [List.mem_append, List.mem_cons, List.mem_singleton, List.not_mem_nil,
    or_false] at hp
  rcases hp with ((((((h | h) | h) | h) | h) | h))
  all_goals first
    | (rcases h with h | h <;> (rw [h]; simp))
    | (split_ifs at h <;> simp at h <;> (rw [h]; simp))
    | (rcases h with h | h | h | h <;> (rw [h]; simp))

theorem authorize_with_callback (l : Locals) (w : World) (cb : AuthCb)
    (hcb : l.auth_cb = some cb) (ho : request_headers l.opts = []) :
    request_headers (authorize l w).1.opts =
      l.slist ++ credential_line (cb l.auth_context l.auth_retry_code l.www_authenticate_header) ∧
    (authorize l w).2.auth_calls =
      w.auth_calls ++ [(l.auth_context, l.auth_retry_code, l.www_authenticate_header)] := by
  have hlast : ∀ s : List String, request_headers (l.opts ++ [CurlOpt.HTTPHEADER s]) = s := by
    intro s
    unfold request_headers
    rw [List.foldl_append]
    rfl
  unfold authorize
  rw [hcb]
  simp only
  cases cb l.auth_context l.auth_retry_code l.www_authenticate_header with
  | none =>
    simp only [credential_line, List.append_nil]
    split_ifs with h
    · exact ⟨hlast _, rfl⟩
    · refine ⟨?_, rfl⟩
      rw [ho]
      exact (not_not.mp h).symm
  | some auth =>
    simp only [credential_line, append_header]
    split_ifs with h
    · exact ⟨hlast _, rfl⟩
    · exact absurd (not_not.mp h) (by simp)

theorem transfer_headers {J : Type} (reply : Reply) (l : Locals) (hcr : Response J) (w : World) :
    (transfer reply l hcr w).2.1.hcr_headers = (feed_headers reply.header_lines hcr).hcr_headers := by
  unfold transfer
  simp only
  rcases l.outfile with _ | _ | _ <;> simp only <;> split_ifs <;> rfl

theorem attempt_headers {J : Type} (x : Ext J) (url : String) (tags : List Tag) (l : Locals)
    (hcr : Response J) (w : World) :
    (attempt x url tags l hcr w).2.2.1.hcr_headers =
      some ((attempt x url tags l hcr w).1.header_lines.foldl hdr_store []) := by
  show (transfer _ _ _ _).2.1.hcr_headers = _
  rw [transfer_headers, feed_headers_map]
  rfl

theorem build_init_challenge (url : String) (tags : List Tag) :
    (build url tags Locals.init).www_authenticate_header = none := by
  obtain ⟨-, -, -, -, -, -, -, -, -, -, -, -, -, -, w1, -⟩ :=
    tags_rel_foldl tags Locals.init Locals.init
  exact w1

/-- C3 (amended): when a callback is supplied and the first attempt is answered
with 401, the callback is invoked twice: before the first attempt with the
opaque context, retry code 0 and no challenge, and before the second with the
opaque context, retry code 401 and the `www-authenticate` value captured from
the first reply; the header list of each attempt is the list built from the
tags followed by an `Authorization` line exactly when the callback returned a
credential for that attempt. -/
theorem C3_callback_asked_before_each_attempt {J : Type} (x : Ext J) (url : String)
    (tags : List Tag) (w : World) (fuel : Nat) (cb : AuthCb) (hfuel : 2 ≤ fuel)
    (hcb : (call_locals tags).auth_cb = some cb)
    (h401 : (first_attempt x url tags w).1.response_code = 401) :
    ∃ r o1 o2, http_client_request x fuel url tags w = some r ∧
      r.2.2.auth_calls = w.auth_calls ++
        [((call_locals tags).auth_context, 0, none),
         ((call_locals tags).auth_context, 401, challenge_of (first_attempt x url tags w).1)] ∧
      r.2.2.performed = w.performed ++ [o1, o2] ∧
      request_headers o1 = base_headers url tags ++
        credential_line (cb (call_locals tags).auth_context 0 none) ∧
      request_headers o2 = base_headers url tags ++
        credential_line (cb (call_locals tags).auth_context 401
          (challenge_of (first_attempt x url tags w).1)) := by
  have hret : retries x url tags w := ⟨h401, by rw [hcb]; rfl⟩
  have hta : terminal_attempt x url tags w = second_attempt x url tags w := by
    unfold terminal_attempt
    rw [if_pos hret]
  have hr := request_returns x url tags w fuel hfuel
  rw [hta] at hr
  have hb1 : (build url tags Locals.init).auth_cb = some cb := hcb
  have a1 := authorize_with_callback (build url tags Locals.init) w.acquired cb hb1
    (by rw [build_request_headers]; rfl)
  rw [build_init_code, build_init_challenge] at a1
  have w1 := attempt_world x url tags Locals.init (Response.zero : Response J) w.acquired
  have hch : (first_attempt x url tags w).2.2.1.hcr_headers.bind
      (fun m => ntv_get_str m (cstr "www-authenticate")) =
      challenge_of (first_attempt x url tags w).1 := by
    unfold first_attempt
    rw [attempt_headers]
    rfl
  have hl2 := second_locals x url tags w
  rw [hch] at hl2
  have hb2 : (build url tags (retry_locals (first_attempt x url tags w).2.1
      (first_attempt x url tags w).2.2.1)).auth_cb = some cb := by rw [hl2]; exact hcb
  have a2 := authorize_with_callback _ (first_attempt x url tags w).2.2.2 cb hb2
    (by rw [build_request_headers]; rfl)
  have w2 := attempt_world x url tags (retry_locals (first_attempt x url tags w).2.1
      (first_attempt x url tags w).2.2.1)
    (http_client_response_free (first_attempt x url tags w).2.2.1)
    (first_attempt x url tags w).2.2.2
  have fw := finish_world x (get_handle w.pool).1 (second_attempt x url tags w).1
    (second_attempt x url tags w).2.1 (second_attempt x url tags w).2.2.1
    (second_attempt x url tags w).2.2.2
  refine ⟨_, (authorize (build url tags Locals.init) w.acquired).1.opts,
    (authorize (build url tags (retry_locals (first_attempt x url tags w).2.1
      (first_attempt x url tags w).2.2.1)) (first_attempt x url tags w).2.2.2).1.opts,
    hr, ?_, ?_, a1.1, ?_⟩
  · rw [fw.2.1]
    show (attempt x url tags _ _ _).2.2.2.auth_calls = _
    rw [w2.2.1, a2.2]
    show (attempt x url tags _ _ _).2.2.2.auth_calls ++ _ = _
    rw [w1.2.1, a1.2, hl2]
    simp [World.acquired]
    rfl
  · rw [fw.1]
    show (attempt x url tags _ _ _).2.2.2.performed = _
    rw [w2.1]
    show (attempt x url tags _ _ _).2.2.2.performed ++ _ = _
    rw [w1.1]
    simp [World.acquired]
  · rw [a2.1, hl2]
    rfl

/-- A callback that answers only the retry: the first attempt carries no
`Authorization` line, the second does. -/
theorem C3_callback_asked_before_each_attempt_witness :
    ∃ r o1 o2, http_client_request (Ext.answers reply_401 reply_200) 2 "http://a"
        [Tag.AUTHCB (some cb_on_retry) 7] World.init = some r ∧
      r.2.2.auth_calls = [(7, 0, none), (7, 401, some (cstr "Basic realm=x"))] ∧
      r.2.2.performed = [o1, o2] ∧
      request_headers o1 = [] ∧ request_headers o2 = ["Authorization: Bearer t"] :=
  match C3_callback_asked_before_each_attempt (Ext.answers reply_401 reply_200) "http://a"
      [Tag.AUTHCB (some cb_on_retry) 7] World.init 2 cb_on_retry (by decide) rfl
      (by decide) with
  | ⟨r, o1, o2, h1, h2, h3, h4, h5⟩ =>
    ⟨r, o1, o2, h1, h2.trans (by decide), h3, h4.trans (by decide), h5.trans (by decide)⟩

/-- C3 (as stated) fails: with a callback that supplies a credential whenever it
is asked, the first attempt, answered with 401, already carries the
`Authorization` line; the callback was asked before it with retry code 0 and
no challenge. -/
theorem C3_counterexample_credential_on_first_attempt :
    (first_attempt (Ext.answers reply_401 reply_200) "http://a"
      [Tag.AUTHCB (some cb_always) 7] World.init).1.response_code = 401 ∧
    (http_client_request (Ext.answers reply_401 reply_200) 2 "http://a"
      [Tag.AUTHCB (some cb_always) 7] World.init).map
        (fun r => (r.2.2.performed.map request_headers, r.2.2.auth_calls)) =
      some ([["Authorization: Basic abc"], ["Authorization: Basic abc"]],
        [(7, 0, none), (7, 401, some (cstr "Basic realm=x"))]) := by
  constructor <;> decide

/-! ## The response of a retried call -/

theorem transfer_response_congr {J : Type} (reply : Reply) (l l1 : Locals) (hcr : Response J)
    (w w1 : World) (ho : l.outfile = l1.outfile) (hm : l.memfile = l1.memfile) :
    (transfer reply l hcr w).2.1 = (transfer reply l1 hcr w1).2.1 := by
  unfold transfer
  simp only [ho, hm]
  rcases l1.outfile with _ | _ | _ <;> simp only <;> split_ifs <;> rfl

theorem finish_response_congr {J : Type} (x : Ext J) (c c1 : Nat) (reply : Reply)
    (l l1 : Locals) (hcr : Response J) (w w1 : World) (hf : l.flags = l1.flags)
    (hm : l.memfile = l1.memfile) (hb : l.errbuf = l1.errbuf) (hs : l.errsize = l1.errsize)
    (hw : w.errbuf = w1.errbuf) :
    (finish x c reply l hcr w).2.1 = (finish x c1 reply l1 hcr w1).2.1 := by
  unfold finish
  simp only [hf, hm, hb, hs]
  cases x.ntv_json_deserialize ((hcr.hcr_body.getD []).takeWhile (fun b => b != 0)) <;>
    simp only <;> split_ifs
  all_goals simp_all [snprintf_errbuf, err_push]
  all_goals split_ifs <;> simp_all

theorem authorize_setup (l : Locals) (w : World) : same_setup (authorize l w).1 l := by
  rw [authorize_locals]
  exact ⟨rfl, rfl, rfl, rfl, rfl, rfl, rfl, rfl, rfl⟩

theorem same_setup_trans {a b c : Locals} (h : same_setup a b) (e : same_setup b c) :
    same_setup a c := by
  obtain ⟨h1, h2, h3, h4, h5, h6, h7, h8, h9⟩ := h
  obtain ⟨e1, e2, e3, e4, e5, e6, e7, e8, e9⟩ := e
  exact ⟨h1.trans e1, h2.trans e2, h3.trans e3, h4.trans e4, h5.trans e5, h6.trans e6,
    h7.trans e7, h8.trans e8, h9.trans e9⟩

theorem second_build_setup {J : Type} (x : Ext J) (url : String) (tags : List Tag) (w : World) :
    same_setup (build url tags (retry_locals (first_attempt x url tags w).2.1
      (first_attempt x url tags w).2.2.1)) (build url tags Locals.init) := by
  rw [second_locals]
  exact ⟨rfl, rfl, rfl, rfl, rfl, rfl, rfl, rfl, rfl⟩

theorem transfer_body {J : Type} (reply : Reply) (l : Locals) (hcr : Response J) (w : World)
    (ho : l.outfile = some Outfile.mem) (hm : l.memfile = true) :
    (transfer reply l hcr w).2.1.hcr_body = some reply.body ∧
    (transfer reply l hcr w).2.1.hcr_bodysize = reply.body.length := by
  unfold transfer
  simp only [ho, hm]
  exact ⟨rfl, rfl⟩

/-- C4: when the call retries after a 401, the response it returns is the one a
single attempt answered by the second reply fills from a zeroed response: its
header map holds what the header lines of the second reply store, its status
is that of the second reply, and with the in-memory sink its body and body
size are the bytes of the second reply. -/
theorem C4_retried_response_from_second_attempt_only {J : Type} (x : Ext J) (url : String)
    (tags : List Tag) (w : World) (fuel : Nat) (hfuel : 2 ≤ fuel)
    (hret : retries x url tags w) :
    ∃ r, http_client_request x fuel url tags w = some r ∧
      r.2.1 = single_fill x url tags (second_attempt x url tags w).1 w ∧
      r.2.1.hcr_headers =
        some ((second_attempt x url tags w).1.header_lines.foldl hdr_store []) ∧
      r.2.1.hcr_http_status = (second_attempt x url tags w).1.response_code ∧
      ((call_locals tags).outfile = none →
        r.2.1.hcr_body = some (second_attempt x url tags w).1.body ∧
        r.2.1.hcr_bodysize = (second_attempt x url tags w).1.body.length) := by
  have hta : terminal_attempt x url tags w = second_attempt x url tags w := by
    unfold terminal_attempt
    rw [if_pos hret]
  have hr := request_returns x url tags w fuel hfuel
  rw [hta] at hr
  have hst := finish_status x (get_handle w.pool).1 (second_attempt x url tags w).1
    (second_attempt x url tags w).2.1 (second_attempt x url tags w).2.2.1
    (second_attempt x url tags w).2.2.2
  -- the locals handed to `transfer` in the second attempt and in a single attempt
  obtain ⟨-, a2, a3, a4, -, -, -, a8, a9⟩ := same_setup_trans (authorize_setup
    (build url tags (retry_locals (first_attempt x url tags w).2.1
      (first_attempt x url tags w).2.2.1)) (first_attempt x url tags w).2.2.2)
    (second_build_setup x url tags w)
  obtain ⟨-, b2, b3, b4, -, -, -, b8, b9⟩ := authorize_setup (build url tags Locals.init) w
  have hresp : (second_attempt x url tags w).2.2.1 =
      (transfer (second_attempt x url tags w).1 (authorize (build url tags Locals.init) w).1
        (Response.fresh : Response J) (authorize (build url tags Locals.init) w).2).2.1 :=
    transfer_response_congr _ _ _ _ _ _ (a8.trans b8.symm) (a9.trans b9.symm)
  obtain ⟨-, s2, s3, s4, -, -, -, -, s9⟩ := second_setup x url tags w
  have we := attempt_world x url tags (retry_locals (first_attempt x url tags w).2.1
      (first_attempt x url tags w).2.2.1)
    (http_client_response_free (first_attempt x url tags w).2.2.1)
    (first_attempt x url tags w).2.2.2
  have we1 := attempt_world x url tags Locals.init (Response.zero : Response J) w.acquired
  have hwe : (second_attempt x url tags w).2.2.2.errbuf = w.errbuf := by
    show (attempt x url tags _ _ _).2.2.2.errbuf = _
    rw [we.2.2.1]
    show (attempt x url tags _ _ _).2.2.2.errbuf = _
    rw [we1.2.2.1]
    rfl
  have hwt := transfer_world (second_attempt x url tags w).1
    (authorize (build url tags Locals.init) w).1 (Response.fresh : Response J)
    (authorize (build url tags Locals.init) w).2
  refine ⟨_, hr, ?_, ?_, hst.1, ?_⟩
  · unfold single_fill
    simp only
    rw [← hresp]
    apply finish_response_congr
    · exact s4.trans b4.symm
    · exact s9.trans b9.symm
    · exact s2.trans b2.symm
    · exact s3.trans b3.symm
    · rw [hwe, hwt.2.2.1, (authorize_world _ _).2.1]
  · rw [hst.2.2.2]
    exact attempt_headers _ _ _ _ _ _
  · intro hmem
    rw [hst.2.1, hst.2.2.1]
    apply transfer_body
    · rw [a8]
      show some ((call_locals tags).outfile.getD Outfile.mem) = _
      rw [hmem]; rfl
    · rw [a9, build_memfile, hmem]; rfl

/-- A 401 carrying headers and a body, then a 200: nothing of the 401 is left. -/
theorem C4_retried_response_from_second_attempt_only_witness :
    ∃ r, http_client_request (Ext.answers reply_401 reply_200) 2 "http://a"
        [Tag.AUTHCB (some cb_on_retry) 7] World.init = some r ∧
      r.2.1.hcr_headers = some [(cstr "content-type", cstr "text/plain")] ∧
      r.2.1.hcr_http_status = 200 ∧
      r.2.1.hcr_body = some (cstr "hello") ∧ r.2.1.hcr_bodysize = 5 :=
  (C4_retried_response_from_second_attempt_only (Ext.answers reply_401 reply_200) "http://a"
    [Tag.AUTHCB (some cb_on_retry) 7] World.init 2 (by decide) (by decide)).imp fun _ h =>
      ⟨h.1, h.2.2.1.trans (by decide), h.2.2.2.1.trans (by decide),
        (h.2.2.2.2 (by decide)).1.trans (by decide),
        (h.2.2.2.2 (by decide)).2.trans (by decide)⟩

/-! ## The ranged reader -/

theorem range_first_attempt {J : Type} (x : Ext J) (url : String) (fpos : Int) (size : Nat)
    (w : World) :
    first_attempt x url (range_tags fpos size) w =
      (x.curl_easy_perform w.performed.length (range_request url (range_value fpos size)),
        transfer (x.curl_easy_perform w.performed.length
            (range_request url (range_value fpos size)))
          { Locals.init with
            slist := ["Range: " ++ range_value fpos size]
            outfile := some Outfile.mem, memfile := true
            opts := range_request url (range_value fpos size) }
          Response.fresh w.acquired) := by
  rfl

theorem wrap64_id (i : Int) (h1 : -(2 : Int) ^ 63 ≤ i) (h2 : i < (2 : Int) ^ 63) :
    wrap64 i = i := by
  unfold wrap64
  omega

/-- The request that `hof_read` issues: it returns, it performs one transfer whose
options hold the `Range` line, and it succeeds exactly when the transport does
not fail and the status is below 400; the response holds the status and the
body of the reply. -/
theorem range_request_returns {J : Type} (x : Ext J) (url : String) (fpos : Int) (size : Nat)
    (w : World) (fuel : Nat) (hfuel : 2 ≤ fuel) :
    ∃ r, http_client_request x fuel url (range_tags fpos size) w = some r ∧
      r.2.2.performed = w.performed ++ [range_request url (range_value fpos size)] ∧
      r.2.1.hcr_http_status = (x.curl_easy_perform w.performed.length
        (range_request url (range_value fpos size))).response_code ∧
      r.2.1.hcr_body = some (x.curl_easy_perform w.performed.length
        (range_request url (range_value fpos size))).body ∧
      r.2.1.hcr_bodysize = (x.curl_easy_perform w.performed.length
        (range_request url (range_value fpos size))).body.length ∧
      (r.1 = 0 ↔
        ((x.curl_easy_perform w.performed.length
          (range_request url (range_value fpos size))).result = 0 ∧
         ¬ 400 ≤ (x.curl_easy_perform w.performed.length
          (range_request url (range_value fpos size))).response_code)) := by
  have hr := request_returns x url (range_tags fpos size) w fuel hfuel
  have hnr : ¬ retries x url (range_tags fpos size) w := by
    intro h
    have h2 : (none : Option AuthCb).isSome = true := h.2
    simp at h2
  have hta : terminal_attempt x url (range_tags fpos size) w =
      first_attempt x url (range_tags fpos size) w := by
    unfold terminal_attempt
    rw [if_neg hnr]
  rw [hta, range_first_attempt] at hr
  simp only at hr
  generalize x.curl_easy_perform w.performed.length
    (range_request url (range_value fpos size)) = reply at hr ⊢
  have hfl : (transfer reply { Locals.init with
            slist := ["Range: " ++ range_value fpos size]
            outfile := some Outfile.mem, memfile := true
            opts := range_request url (range_value fpos size) }
          (Response.fresh : Response J) w.acquired).1.flags = Flags.zero := rfl
  have hbody := transfer_body reply { Locals.init with
            slist := ["Range: " ++ range_value fpos size]
            outfile := some Outfile.mem, memfile := true
            opts := range_request url (range_value fpos size) }
          (Response.fresh : Response J) w.acquired rfl rfl
  have hperf := (transfer_world reply { Locals.init with
            slist := ["Range: " ++ range_value fpos size]
            outfile := some Outfile.mem, memfile := true
            opts := range_request url (range_value fpos size) }
          (Response.fresh : Response J) w.acquired).1
  generalize transfer reply { Locals.init with
            slist := ["Range: " ++ range_value fpos size]
            outfile := some Outfile.mem, memfile := true
            opts := range_request url (range_value fpos size) }
          (Response.fresh : Response J) w.acquired = t at hr hfl hbody hperf
  have hst := finish_status x (get_handle w.pool).1 reply t.1 t.2.1 t.2.2
  refine ⟨_, hr, ?_, hst.1, ?_, ?_, ?_⟩
  · rw [(finish_world _ _ _ _ _ _).1, hperf]
    rfl
  · rw [hst.2.1, hbody.1]
  · rw [hst.2.2.1, hbody.2]
  · by_cases hres : reply.result = 0
    · by_cases hc : 400 ≤ reply.response_code
      · have := (finish_http_error x (get_handle w.pool).1 reply t.1 t.2.1 t.2.2 hres hc
          (by rw [hfl]; rfl)).1
        rw [this]
        simp [hc]
      · have := finish_other x (get_handle w.pool).1 reply t.1 t.2.1 t.2.2 hres
          (fun h => hc h.1)
        have hne : ¬ ((finish x (get_handle w.pool).1 reply t.1 t.2.1 t.2.2).1 = 1) := by
          intro h
          have h2 := (this.1.mp h).2.1
          rw [hfl] at h2
          exact absurd h2 (by decide)
        rcases this.2.1 with h | h
        · exact absurd h hne
        · rw [h]; simp [hres, hc]
    · have := (finish_transport_failure x (get_handle w.pool).1 reply t.1 t.2.1 t.2.2 hres).1
      rw [this]
      simp [hres]

theorem hof_read_result {J : Type} (x : Ext J) (hcf : HttpClientFile) (size : Nat)
    (w : World) (fuel : Nat) (r : Nat × Response J × World)
    (hr : http_client_request x fuel hcf.url (range_tags hcf.fpos size) w = some r) :
    hof_read x fuel hcf size w =
      some (if r.1 ≠ 0 ∨ r.2.1.hcr_http_status ≠ 206 then (-1, [], hcf, r.2.2)
        else (((min size r.2.1.hcr_bodysize : Nat) : Int),
          (r.2.1.hcr_body.getD []).take (min size r.2.1.hcr_bodysize),
          { hcf with fpos := wrap64 (hcf.fpos + (min size r.2.1.hcr_bodysize : Nat)) },
          r.2.2)) := by
  unfold hof_read
  have hr' : http_client_request x fuel hcf.url
      [Tag.HEADER (some "Range") (some (range_value hcf.fpos size))] w = some r := hr
  rw [hr']
  obtain ⟨rval, hcr, w1⟩ := r
  simp only
  by_cases h1 : rval ≠ 0
  · simp [h1]
  · by_cases h2 : hcr.hcr_http_status ≠ 206
    · simp [h1, h2]
    · simp [h1, h2]

/-- C6: for a cursor and a read size that stay within `int64_t`, `hof_read` issues
one request, whose header list is the line `Range: bytes=cursor-(cursor+size-1)`;
if the request fails or its status is not 206 the result is -1 and the cursor
stays; otherwise the result is `min size bodysize`, that many leading bytes of
the body are copied and the cursor advances by that amount. -/
theorem C6_hof_read_one_ranged_request {J : Type} (x : Ext J) (hcf : HttpClientFile)
    (size : Nat) (w : World) (fuel : Nat) (hfuel : 2 ≤ fuel)
    (hcur : -(2 : Int) ^ 63 ≤ hcf.fpos) (hlo : -(2 : Int) ^ 63 ≤ hcf.fpos + size - 1)
    (hhi : hcf.fpos + size < (2 : Int) ^ 63) :
    ∃ r ret data hcf1 w1,
      http_client_request x fuel hcf.url (range_tags hcf.fpos size) w = some r ∧
      hof_read x fuel hcf size w = some (ret, data, hcf1, w1) ∧
      w1.performed = w.performed ++ [range_request hcf.url (range_value hcf.fpos size)] ∧
      request_headers (range_request hcf.url (range_value hcf.fpos size)) =
        ["Range: bytes=" ++ toString hcf.fpos ++ "-" ++ toString (hcf.fpos + size - 1)] ∧
      r.2.1.hcr_body = some (x.curl_easy_perform w.performed.length
        (range_request hcf.url (range_value hcf.fpos size))).body ∧
      r.2.1.hcr_bodysize = (x.curl_easy_perform w.performed.length
        (range_request hcf.url (range_value hcf.fpos size))).body.length ∧
      ((r.1 ≠ 0 ∨ r.2.1.hcr_http_status ≠ 206) → ret = -1 ∧ data = [] ∧ hcf1 = hcf) ∧
      (r.1 = 0 → r.2.1.hcr_http_status = 206 →
        ret = ((min size r.2.1.hcr_bodysize : Nat) : Int) ∧
        data = (r.2.1.hcr_body.getD []).take (min size r.2.1.hcr_bodysize) ∧
        (data.length : Int) = ret ∧
        hcf1.fpos = hcf.fpos + ret ∧ hcf1.url = hcf.url) := by
  obtain ⟨r, hr, hperf, -, hbody, hsize, -⟩ :=
    range_request_returns x hcf.url hcf.fpos size w fuel hfuel
  have hres := hof_read_result x hcf size w fuel r hr
  have hw : wrap64 (hcf.fpos + size - 1) = hcf.fpos + size - 1 := wrap64_id _ hlo (by omega)
  have hhdr : request_headers (range_request hcf.url (range_value hcf.fpos size)) =
      ["Range: bytes=" ++ toString hcf.fpos ++ "-" ++ toString (hcf.fpos + size - 1)] := by
    show ["Range: " ++ range_value hcf.fpos size] = _
    unfold range_value
    rw [hw, show ("Range: bytes=" : String) = "Range: " ++ "bytes=" from by decide]
    simp only [String.append_assoc]
  by_cases hc : r.1 ≠ 0 ∨ r.2.1.hcr_http_status ≠ 206
  · rw [if_pos hc] at hres
    refine ⟨r, _, _, _, _, hr, hres, hperf, hhdr, hbody, hsize, fun _ => ⟨rfl, rfl, rfl⟩, ?_⟩
    intro h1 h2
    rcases hc with h | h
    · exact absurd h1 h
    · exact absurd h2 h
  · rw [if_neg hc] at hres
    refine ⟨r, _, _, _, _, hr, hres, hperf, hhdr, hbody, hsize, fun h => absurd h hc, ?_⟩
    intro _ _
    have hmin : min size r.2.1.hcr_bodysize ≤ size := Nat.min_le_left _ _
    refine ⟨rfl, rfl, ?_, ?_, rfl⟩
    · rw [hbody, hsize]
      simp
    · show wrap64 _ = _
      apply wrap64_id
      · omega
      · omega

/-- A read of 8 bytes at cursor 0 of a five-byte resource, answered with 206. -/
theorem C6_hof_read_one_ranged_request_witness :
    ∃ r ret data hcf1 w1,
      http_client_request (range_server [1, 2, 3, 4, 5]) 2 "http://a/r"
        (range_tags 0 8) World.init = some r ∧
      hof_read (range_server [1, 2, 3, 4, 5]) 2 ⟨"http://a/r", 0⟩ 8 World.init
        = some (ret, data, hcf1, w1) ∧
      request_headers (range_request "http://a/r" (range_value 0 8))
        = ["Range: bytes=0-7"] ∧
      ret = 5 ∧ hcf1.fpos = 5 :=
  match C6_hof_read_one_ranged_request (range_server [1, 2, 3, 4, 5])
      ⟨"http://a/r", 0⟩ 8 World.init 2 (by decide) (by decide) (by decide) (by decide) with
  | ⟨r, ret, data, hcf1, w1, h1, h2, _, h4, _, h6, _, h8⟩ =>
    have v : (http_client_request (range_server [1, 2, 3, 4, 5]) 2 "http://a/r"
        (range_tags 0 8) World.init).map (fun r => (r.1, r.2.1.hcr_http_status))
        = some (0, 206) := by decide
    have e : http_client_request (range_server [1, 2, 3, 4, 5]) 2 "http://a/r"
        (range_tags 0 8) World.init = some r := h1
    have hrv : r.1 = 0 := congrArg Prod.fst (Option.some.inj ((congrArg _ e).symm.trans v))
    have hst : r.2.1.hcr_http_status = 206 :=
      congrArg Prod.snd (Option.some.inj ((congrArg _ e).symm.trans v))
    have hsz : r.2.1.hcr_bodysize = 5 := h6.trans (by decide)
    ⟨r, ret, data, hcf1, w1, h1, h2, h4.trans (by decide),
      (h8 hrv hst).1.trans (by rw [hsz]; rfl),
      (h8 hrv hst).2.2.2.1.trans (by rw [(h8 hrv hst).1, hsz]; rfl)⟩

/-! ## Reading a resource of 500 bytes -/

theorem range_server_reply (resource : Bytes) (n : Nat) (url range : String) (a b : Nat)
    (h : parse_range ("Range: " ++ range) = some (a, b)) :
    (range_server resource).curl_easy_perform n (range_request url range) =
      if a < resource.length ∧ a ≤ b then
        { result := 0, response_code := 206,
          header_lines := [cstr "HTTP/1.1 206 Partial Content\r\n", cstr "\r\n"],
          body := (resource.drop a).take (b + 1 - a), primary_ip := none }
      else
        { result := 0, response_code := 416,
          header_lines := [cstr "HTTP/1.1 416 Range Not Satisfiable\r\n", cstr "\r\n"],
          body := [], primary_ip := none } := by
  show (match (["Range: " ++ range] : List String).findSome? parse_range with
    | some (first, last) => _
    | none => _) = _
  simp only [List.findSome?, h]

/-- Two reads of 1024 bytes from a resource of 500 bytes served by `range_server`:
the first delivers the resource and moves the cursor to 500, the second is
answered with 416 and gives -1. -/
theorem range_server_two_reads (resource : Bytes) (hlen : resource.length = 500)
    (url : String) (w : World) (fuel : Nat) (hfuel : 2 ≤ fuel) :
    ∃ w1 w2,
      hof_read (range_server resource) fuel ⟨url, 0⟩ 1024 w
        = some (500, resource, ⟨url, 500⟩, w1) ∧
      ((range_server resource).curl_easy_perform w1.performed.length
        (range_request url (range_value 500 1024))).response_code = 416 ∧
      hof_read (range_server resource) fuel ⟨url, 500⟩ 1024 w1
        = some (-1, [], ⟨url, 500⟩, w2) := by
  obtain ⟨r1, hr1, -, hst1, hb1, hs1, hv1⟩ :=
    range_request_returns (range_server resource) url 0 1024 w fuel hfuel
  have e1 := range_server_reply resource w.performed.length url (range_value 0 1024) 0 1023
    (by decide)
  rw [if_pos ⟨by omega, by omega⟩] at e1
  rw [e1] at hst1 hb1 hs1 hv1
  simp only at hst1 hb1 hs1
  have htake : (resource.drop 0).take (1023 + 1 - 0) = resource := by
    rw [List.drop_zero]
    exact List.take_of_length_le (by omega)
  rw [htake] at hb1 hs1
  have h1 := hof_read_result (range_server resource) ⟨url, 0⟩ 1024 w fuel r1 hr1
  have hrv1 : r1.1 = 0 := hv1.mpr ⟨rfl, Nat.not_le.mpr (by decide : 206 < 400)⟩
  rw [if_neg (by rw [hrv1, hst1]; simp), hs1, hb1, hlen] at h1
  have hfp : wrap64 ((0 : Int) + ((min 1024 500 : Nat) : Int)) = 500 := by decide
  simp only at h1
  rw [hfp] at h1
  have hd : (some resource : Option Bytes).getD [] = resource := rfl
  rw [hd, List.take_of_length_le (by rw [hlen]; decide)] at h1
  obtain ⟨r2, hr2, -, hst2, -, -, hv2⟩ :=
    range_request_returns (range_server resource) url 500 1024 r1.2.2 fuel hfuel
  have e2 := range_server_reply resource r1.2.2.performed.length url (range_value 500 1024)
    500 1523 (by decide)
  rw [if_neg (by omega)] at e2
  rw [e2] at hst2 hv2
  simp only at hst2
  have h2 := hof_read_result (range_server resource) ⟨url, 500⟩ 1024 r1.2.2 fuel r2 hr2
  have hrv2 : r2.1 ≠ 0 := fun h => absurd (show 400 ≤ 416 by decide) (hv2.mp h).2
  rw [if_pos (Or.inl hrv2)] at h2
  refine ⟨r1.2.2, r2.2.2, h1, ?_, h2⟩
  rw [e2]

/-- C7 (amended): from a resource of 500 bytes behind a server that serves byte
ranges, a read of 1024 bytes at offset 0 returns the 500 bytes and leaves the
cursor at 500; the next read, for the range starting at 500, is answered
with 416 and returns the error value -1 with the cursor still at 500.  A read
of a positive size returns 0 only when the transport reports no failure,
status 206 and an empty body. -/
theorem C7_read_at_end_of_resource_is_an_error {J : Type} (x : Ext J)
    (resource : Bytes) (hlen : resource.length = 500)
    (url : String) (w : World) (fuel : Nat) (hfuel : 2 ≤ fuel) :
    (∃ w1 w2,
      hof_read (range_server resource) fuel ⟨url, 0⟩ 1024 w
        = some (500, resource, ⟨url, 500⟩, w1) ∧
      ((range_server resource).curl_easy_perform w1.performed.length
        (range_request url (range_value 500 1024))).response_code = 416 ∧
      hof_read (range_server resource) fuel ⟨url, 500⟩ 1024 w1
        = some (-1, [], ⟨url, 500⟩, w2)) ∧
    (∀ (hcf : HttpClientFile) (size : Nat) (w0 : World) res, 0 < size →
      hof_read x fuel hcf size w0 = some res → res.1 = 0 →
      (x.curl_easy_perform w0.performed.length
        (range_request hcf.url (range_value hcf.fpos size))).result = 0 ∧
      (x.curl_easy_perform w0.performed.length
        (range_request hcf.url (range_value hcf.fpos size))).response_code = 206 ∧
      (x.curl_easy_perform w0.performed.length
        (range_request hcf.url (range_value hcf.fpos size))).body = []) := by
  refine ⟨range_server_two_reads resource hlen url w fuel hfuel, ?_⟩
  intro hcf size w0 res hsize hread hzero
  obtain ⟨r, hr, -, hst, -, hs, hv⟩ :=
    range_request_returns x hcf.url hcf.fpos size w0 fuel hfuel
  have h := hof_read_result x hcf size w0 fuel r hr
  rw [hread] at h
  have h' := Option.some.inj h
  by_cases hc : r.1 ≠ 0 ∨ r.2.1.hcr_http_status ≠ 206
  · rw [if_pos hc] at h'
    rw [h'] at hzero
    exact absurd hzero (by simp)
  · rw [if_neg hc] at h'
    rw [h'] at hzero
    have hrv : r.1 = 0 := by
      by_contra hne
      exact hc (Or.inl hne)
    have hcode : r.2.1.hcr_http_status = 206 := by
      by_contra hne
      exact hc (Or.inr hne)
    have hmin : min size r.2.1.hcr_bodysize = 0 := by
      have : ((min size r.2.1.hcr_bodysize : Nat) : Int) = 0 := hzero
      exact_mod_cast this
    have hz : r.2.1.hcr_bodysize = 0 := by
      rcases Nat.le_total size r.2.1.hcr_bodysize with hle | hle
      · rw [Nat.min_eq_left hle] at hmin; omega
      · rw [Nat.min_eq_right hle] at hmin; exact hmin
    refine ⟨(hv.mp hrv).1, by rw [← hst, hcode], ?_⟩
    rw [hs] at hz
    exact List.length_eq_zero.mp hz

/-- A resource of 500 bytes, fuel 2. -/
theorem C7_read_at_end_of_resource_is_an_error_witness :
    ∃ w1 w2,
      hof_read (range_server (List.replicate 500 65)) 2 ⟨"http://a/r", 0⟩ 1024 World.init
        = some (500, List.replicate 500 65, ⟨"http://a/r", 500⟩, w1) ∧
      hof_read (range_server (List.replicate 500 65)) 2 ⟨"http://a/r", 500⟩ 1024 w1
        = some (-1, [], ⟨"http://a/r", 500⟩, w2) :=
  match (C7_read_at_end_of_resource_is_an_error (range_server [])
      (List.replicate 500 65) (List.length_replicate 500 65) "http://a/r" World.init 2
      (by decide)).1 with
  | ⟨w1, w2, h1, _, h3⟩ => ⟨w1, w2, h1, h3⟩

/-- C7 (as stated) fails: after the 500 bytes have been read, the read at offset
500 asks for `bytes=500-1523`, the server answers 416, and `hof_read` returns
the error value -1, not 0. -/
theorem C7_counterexample_read_at_offset_500 :
    ∃ w1 w2,
      hof_read (range_server (List.replicate 500 65)) 2 ⟨"http://a/r", 0⟩ 1024 World.init
        = some (500, List.replicate 500 65, ⟨"http://a/r", 500⟩, w1) ∧
      range_value 500 1024 = "bytes=500-1523" ∧
      ((range_server (List.replicate 500 65)).curl_easy_perform w1.performed.length
        (range_request "http://a/r" (range_value 500 1024))).response_code = 416 ∧
      hof_read (range_server (List.replicate 500 65)) 2 ⟨"http://a/r", 500⟩ 1024 w1
        = some (-1, [], ⟨"http://a/r", 500⟩, w2) ∧
      (-1 : Int) ≠ 0 :=
  match range_server_two_reads (List.replicate 500 65) (List.length_replicate 500 65)
      "http://a/r" World.init 2 (by decide) with
  | ⟨w1, w2, h1, h2, h3⟩ => ⟨w1, w2, h1, by decide, h2, h3, by decide⟩

/-! ## Backpressure -/

theorem step_bound (s s1 : Sys) (e : Event) (n wmax : Nat) (hs : step s e = some s1)
    (hneed : s.hsf.hsf_need ≤ n)
    (hbuf : s.hsf.hsf_open = true → s.hsf.hsf_buffer.length ≤ n + wmax) :
    s1.hsf.hsf_need ≤ max (need_of e) n ∧
    (s1.hsf.hsf_open = true →
      s1.hsf.hsf_buffer.length ≤ max (need_of e) n + max (write_of e) wmax) := by
  cases e with
  | write code data =>
    simp only [step] at hs
    split_ifs at hs with heof
    simp only [hsf_write, Option.map_eq_some'] at hs
    obtain ⟨r, hr, rfl⟩ := hs
    split_ifs at hr with h400 hblock hop
    · cases hr
      simp only [need_of, write_of, h400, if_true]
      refine ⟨by omega, fun ho => ?_⟩
      have := hbuf ho
      omega
    · cases hr
      simp only [need_of, write_of, h400, if_false, mbuf_append, List.length_append]
      refine ⟨by omega, fun ho => ?_⟩
      have hle : s.hsf.hsf_buffer.length ≤ s.hsf.hsf_need := by
        by_contra hlt
        exact hblock ⟨by omega, ho⟩
      omega
    · cases hr
      exact ⟨by simp only [need_of]; omega, fun ho => absurd ho hop⟩
  | read_enter size =>
    simp only [step] at hs
    split at hs
    · cases hs
    · split_ifs at hs with ho hready
      · cases hs
        simp only [need_of, write_of, hsf_read_enter, hsf_read_drain, mbuf_read,
          List.length_drop]
        refine ⟨by omega, fun _ => ?_⟩
        have := hbuf ho
        omega
      · cases hs
        simp only [need_of, write_of, hsf_read_enter]
        refine ⟨by omega, fun _ => ?_⟩
        have := hbuf ho
        omega
  | read_leave =>
    simp only [step] at hs
    split at hs
    · cases hs
    · split_ifs at hs
      cases hs
      simp only [need_of, write_of, hsf_read_drain, mbuf_read, List.length_drop]
      refine ⟨by omega, fun ho => ?_⟩
      have := hbuf ho
      omega
  | eof =>
    simp only [step] at hs
    split_ifs at hs
    cases hs
    simp only [need_of, write_of]
    refine ⟨by omega, fun ho => ?_⟩
    have := hbuf ho
    omega
  | close =>
    simp only [step] at hs
    split at hs
    · cases hs
    · cases hs
      simp only [need_of, write_of]
      exact ⟨by omega, fun ho => by simp at ho⟩

theorem run_bound (es : List Event) (s s1 : Sys) (n wmax : Nat) (hs : run s es = some s1)
    (hneed : s.hsf.hsf_need ≤ n)
    (hbuf : s.hsf.hsf_open = true → s.hsf.hsf_buffer.length ≤ n + wmax) :
    s1.hsf.hsf_need ≤ max n (max_need es) ∧
    (s1.hsf.hsf_open = true →
      s1.hsf.hsf_buffer.length ≤ max n (max_need es) + max wmax (max_write es)) := by
  induction es generalizing s n wmax with
  | nil =>
    cases hs
    simp only [max_need, max_write, List.foldr_nil]
    refine ⟨by omega, fun ho => ?_⟩
    have := hbuf ho
    omega
  | cons e es ih =>
    simp only [run, Option.bind_eq_some] at hs
    obtain ⟨s2, h2, hrest⟩ := hs
    obtain ⟨b1, b2⟩ := step_bound s s2 e n wmax h2 hneed hbuf
    obtain ⟨c1, c2⟩ := ih s2 (max (need_of e) n) (max (write_of e) wmax) hrest b1 b2
    have e1 : max_need (e :: es) = max (need_of e) (max_need es) := rfl
    have e2 : max_write (e :: es) = max (write_of e) (max_write es) := rfl
    rw [e1, e2]
    refine ⟨by omega, fun ho => ?_⟩
    have := c2 ho
    omega

theorem max_need_le (es : List Event) : max_need es ≤ 65536 := by
  induction es with
  | nil => simp [max_need]
  | cons e es ih =>
    have e1 : max_need (e :: es) = max (need_of e) (max_need es) := rfl
    have : need_of e ≤ 65536 := by
      cases e <;> simp [need_of]
    rw [e1]
    omega

/-- C9 (amended): in every state reached from the freshly opened stream by producer
writes, consumer reads, the end of the producer and a close, in any order and
of any sizes, while `hsf_open` is set the number of buffered bytes is at most
the largest need the consumer has set so far, which is at most 65536, plus the
size of the largest producer write; and right after a producer write it is at
most the current need plus the size of that write. -/
theorem C9_backpressure_bound_by_largest_need (es : List Event) (s : Sys)
    (hrun : run Sys.opened es = some s) (hopen : s.hsf.hsf_open = true) :
    s.hsf.hsf_buffer.length ≤ max_need es + max_write es ∧
    max_need es ≤ 65536 ∧
    s.hsf.hsf_need ≤ max_need es ∧
    (∀ code data s1, step s (.write code data) = some s1 → code < 400 →
      s1.hsf.hsf_buffer.length ≤ s1.hsf.hsf_need + data.length) := by
  obtain ⟨h1, h2⟩ := run_bound es Sys.opened s 0 0 hrun (Nat.le_refl 0) (fun _ => Nat.le_refl 0)
  refine ⟨?_, max_need_le es, by simpa using h1, ?_⟩
  · have := h2 hopen
    simpa using this
  · intro code data s1 hstep hcode
    simp only [step] at hstep
    split_ifs at hstep with heof
    simp only [hsf_write, Option.map_eq_some'] at hstep
    obtain ⟨r, hr, rfl⟩ := hstep
    split_ifs at hr with h400 hblock
    · omega
    · cases hr
      simp only [mbuf_append, List.length_append]
      have hle : s.hsf.hsf_buffer.length ≤ s.hsf.hsf_need := by
        by_contra hlt
        exact hblock ⟨by omega, hopen⟩
      omega

/-- The run with shrinking reads: 14 bytes buffered, bound 10 + 5. -/
theorem C9_backpressure_bound_by_largest_need_witness :
    ∃ s, run Sys.opened shrinking_reads = some s ∧ s.hsf.hsf_open = true ∧
      s.hsf.hsf_buffer.length = 14 ∧ max_need shrinking_reads = 10 ∧
      max_write shrinking_reads = 5 ∧
      s.hsf.hsf_buffer.length ≤ max_need shrinking_reads + max_write shrinking_reads :=
  ⟨_, rfl, rfl, rfl, rfl, rfl,
    (C9_backpressure_bound_by_largest_need shrinking_reads _ rfl rfl).1⟩

/-- C9 (as stated) fails: the consumer reads ten bytes and then asks for one, the
producer writes five bytes at a time; every step is one allowed by the locks
and the stream is open, yet after the second read 14 bytes are buffered while
the need is 1, more than the need plus one write. -/
theorem C9_counterexample_need_shrinks :
    (∀ e ∈ shrinking_reads, write_of e = 0 ∨ write_of e = 5) ∧
    (run Sys.opened shrinking_reads).map
        (fun s => (s.hsf.hsf_open, s.hsf.hsf_buffer.length, s.hsf.hsf_need, s.reading))
      = some (true, 14, 1, none) ∧
    ¬ (14 ≤ 1 + 5) := by
  decide

/-! ## A request is one cycle on the pool -/

/-- The call `http_client_request` acquires a handle at its start and releases that
same handle at its end: on the pool it is one acquire/release cycle. -/
theorem request_is_one_cycle {J : Type} (x : Ext J) (url : String) (tags : List Tag)
    (w : World) (fuel : Nat) (hfuel : 2 ≤ fuel) :
    ∃ r, http_client_request x fuel url tags w = some r ∧ r.2.2.pool = cycle w.pool := by
  refine ⟨_, request_returns x url tags w fuel hfuel, ?_⟩
  rw [(finish_world _ _ _ _ _ _).2.2.2]
  have hp : (terminal_attempt x url tags w).2.2.2.pool = (get_handle w.pool).2 := by
    unfold terminal_attempt
    split_ifs
    · show (attempt x url tags _ _ _).2.2.2.pool = _
      rw [(attempt_world _ _ _ _ _ _).2.2.2]
      show (attempt x url tags _ _ _).2.2.2.pool = _
      rw [(attempt_world _ _ _ _ _ _).2.2.2]
      rfl
    · show (attempt x url tags _ _ _).2.2.2.pool = _
      rw [(attempt_world _ _ _ _ _ _).2.2.2]
      rfl
  rw [hp]
  rfl

end HttpClient
